import Mathlib

/-!
# go-events-timeline: timeline model, importer and renderer

A shallow embedding of `main.go` and the properties of its specification.

Modelling conventions

* `time.Time` is an instant, counted in nanoseconds from Go's zero instant
  (0001-01-01 00:00:00 UTC); instants before it are negative. `IsZero`,
  `After`, `Before` and `Sub` follow the documentation of package `time`
  (`Sub` saturates at the bounds of `Duration`, which is an `int64`).
* `float64` values are rationals. `Draw` and `Seconds` compute in exact
  arithmetic; `Draw64` and `Seconds64` are the same functions with the rounding
  of binary64 after every operation.
* a `color.Color` is `Option RGBA`, `none` being the nil interface value.
* slices of pointers are lists of values: no function of the program mutates
  an event or a track after it was handed over.
* the `gg` drawing context is the sequence of calls made on it; what the
  program prints on the console is left out.
* `time.Parse` and `xlsx.OpenFile` are parameters of the importer; a cell of a
  sheet is the text its method `String` returns.
-/

namespace GoEventsTimeline

/-! ## Package `time` -/

/-- An instant: nanoseconds elapsed since 0001-01-01 00:00:00 UTC. -/
abbrev Time := Int

/-- A `time.Duration`: a number of nanoseconds held in an `int64`. -/
abbrev Duration := Int

/-- The largest `Duration`, `1<<63 - 1` nanoseconds (about 292 years). -/
def maxDuration : Duration := 2 ^ 63 - 1

/-- The smallest `Duration`, `-1 << 63` nanoseconds. -/
def minDuration : Duration := -(2 ^ 63)

/-- One second, in nanoseconds. -/
def Second : Duration := 1000000000

/-- Method `t.IsZero()`: whether `t` is the zero instant. -/
def Time.IsZero (t : Time) : Bool := decide (t = 0)

/-- Method `t.After(u)`: whether `t` is after `u`. -/
def Time.After (t u : Time) : Bool := decide (t > u)

/-- Method `t.Before(u)`: whether `t` is before `u`. -/
def Time.Before (t u : Time) : Bool := decide (t < u)

/-- Method `t.Sub(u)`: the duration `t - u`; when it does not fit a `Duration` the
largest (or smallest) duration is returned. -/
def Time.Sub (t u : Time) : Duration :=
  let d := t - u
  if d > maxDuration then maxDuration
  else if d < minDuration then minDuration
  else d

/-- Method `d.Seconds()`: the duration as a number of seconds,
`float64(d / Second) + float64(d % Second) / 1e9`. -/
def Duration.Seconds (d : Duration) : ℚ :=
  let sec := Int.tdiv d Second
  let nsec := Int.tmod d Second
  (sec : ℚ) + (nsec : ℚ) / 1000000000

/-! ## Data model -/

/-- A `color.RGBA` value. -/
structure RGBA where
  R : Nat
  G : Nat
  B : Nat
  A : Nat
deriving DecidableEq, Repr

/-- The struct `Event`. -/
structure Event where
  Start : Time
  End : Time
  Name : String
  Color : Option RGBA
deriving DecidableEq, Repr

/-- The struct `EventsList`. -/
structure EventsList where
  Name : String
  Events : List Event
deriving DecidableEq, Repr

/-- The struct `TimeLine`. -/
structure TimeLine where
  List : List EventsList
  Start : Time
  End : Time
  EventsNb : Int
deriving DecidableEq, Repr

/-- Method `l.AddEvent(event)`: the track with `event` appended. -/
def EventsList.AddEvent (l : EventsList) (event : Event) : EventsList :=
  { l with Events := l.Events ++ [event] }

/-! ## `NewTimeLine` -/

/-- The local variables `start`, `end` and `eventsNb` of `NewTimeLine`; `end` is
named `stop`, as `end` is a keyword. -/
structure Bounds where
  start : Time
  stop : Time
  eventsNb : Int
deriving DecidableEq, Repr

/-- One pass of the inner loop body of `NewTimeLine`. -/
def Bounds.visit (s : Bounds) (event : Event) : Bounds :=
  let start := if Time.IsZero s.start || Time.After s.start event.Start then event.Start else s.start
  let stop := if Time.IsZero s.stop || Time.Before s.stop event.End then event.End else s.stop
  { start := start, stop := stop, eventsNb := s.eventsNb + 1 }

/-- The inner loop of `NewTimeLine`, over the events of one track. -/
def Bounds.visitEvents (s : Bounds) (events : EventsList) : Bounds :=
  events.Events.foldl Bounds.visit s

/-- Function `NewTimeLine(list)`. -/
def NewTimeLine (list : List EventsList) : TimeLine :=
  let s := list.foldl Bounds.visitEvents { start := 0, stop := 0, eventsNb := 0 }
  { List := list, Start := s.start, End := s.stop, EventsNb := s.eventsNb }

/-! ## Package `gg`: the calls made on a drawing context -/

/-- A call on the drawing context (`gg.NewContext` creates it). -/
inductive Op where
  | NewContext (width height : Int)
  | DrawRectangle (x y w h : ℚ)
  | SetRGB255 (r g b : Int)
  | SetColor (c : RGBA)
  | Fill
  | SavePNG (path : String)
deriving DecidableEq, Repr

/-- The conversion `int(f)` of a `float64`: the fraction is discarded
(truncation toward zero). The language defines the conversion when the result
fits an `int`, of 64 bits, and leaves it to the implementation otherwise; what
is stated of the conversion of a value the caller chooses carries the
hypothesis `fitsInt`. -/
def toInt (f : ℚ) : Int := Int.tdiv f.num (f.den : Int)

/-- Method `e.Draw(dc, x, y, h, factor)`: the calls it makes on `dc`. -/
def Event.Draw (e : Event) (x y h factor : ℚ) : List Op :=
  let duration := Time.Sub e.End e.Start
  Op.DrawRectangle x y (Duration.Seconds duration * factor) h ::
    (match e.Color with
     | some c => [Op.SetColor c, Op.Fill]
     | none => [])

/-- The context `dc` and the local variable `y` of `Draw`. -/
structure DrawState where
  dc : List Op
  y : ℚ
deriving DecidableEq, Repr

/-- One pass of the inner loop body of `Draw`. -/
def DrawState.drawEvent (timeline : TimeLine) (heightByEvent factor : ℚ)
    (s : DrawState) (event : Event) : DrawState :=
  { dc := s.dc ++ event.Draw
      (Duration.Seconds (Time.Sub event.Start timeline.Start) * factor) s.y
      heightByEvent factor,
    y := s.y + heightByEvent }

/-- The inner loop of `Draw`, over the events of one track. -/
def DrawState.drawEvents (timeline : TimeLine) (heightByEvent factor : ℚ)
    (s : DrawState) (events : EventsList) : DrawState :=
  events.Events.foldl (DrawState.drawEvent timeline heightByEvent factor) s

/-- Function `Draw(timeline, width)`: the calls made on the drawing context, in order;
no call at all when the function returns at once. -/
def Draw (timeline : TimeLine) (width : ℚ) : List Op :=
  let totalDuration := Time.Sub timeline.End timeline.Start
  if Duration.Seconds totalDuration = 0 then []
  else
    let factor := width / Duration.Seconds totalDuration
    let heightByEvent : ℚ := 10
    let height := heightByEvent * (timeline.EventsNb : ℚ)
    let height := if height < 100 then 1000 else height
    let dc := [Op.NewContext (toInt width) (toInt height),
      Op.DrawRectangle 0 0 width height, Op.SetRGB255 255 255 255, Op.Fill]
    let s := timeline.List.foldl (DrawState.drawEvents timeline heightByEvent factor)
      { dc := dc, y := 0 }
    s.dc ++ [Op.SavePNG "out.png"]

/-! ## `ImportFromXLSX` -/

/-- The cell index of the start timestamp. -/
def START : Nat := 0

/-- The cell index of the end timestamp. -/
def END : Nat := 1

/-- The cell index of the name. -/
def NAME : Nat := 2

/-- The cell index of the colour token. -/
def COLOR : Nat := 3

/-- The map `COLORS`. -/
def COLORS : List (String × RGBA) :=
  [("black", ⟨0, 0, 0, 255⟩),
   ("white", ⟨255, 255, 255, 255⟩),
   ("red", ⟨255, 0, 0, 255⟩),
   ("green", ⟨0, 255, 0, 255⟩),
   ("blue", ⟨0, 0, 255, 255⟩),
   ("yellow", ⟨255, 255, 0, 255⟩)]

/-- A cell of a sheet, known by the text `cell.String()` returns. -/
structure Cell where
  Value : String
deriving DecidableEq, Repr

/-- Method `cell.String()`. -/
def Cell.String (cell : Cell) : String := cell.Value

/-- A row of a sheet. -/
structure Row where
  Cells : List Cell
deriving DecidableEq, Repr

/-- A sheet of a workbook. -/
structure Sheet where
  Name : String
  Rows : List Row
deriving DecidableEq, Repr

/-- An opened workbook. -/
structure File where
  Sheets : List Sheet
deriving DecidableEq, Repr

/-- The errors `ImportFromXLSX` returns: the one of `xlsx.OpenFile`, or the
arguments of the format `Invalid value at sheet ..., row ... and cell ...`. -/
inductive ImportError where
  | OpenFile (err : String)
  | InvalidValue (sheet : String) (idxRow idxCell : Nat) (value err : String)
deriving DecidableEq, Repr

/-- The text of an error. -/
def ImportError.Error : ImportError → String
  | .OpenFile err => err
  | .InvalidValue sheet idxRow idxCell value err =>
    "Invalid value at sheet \x27" ++ sheet ++ "\x27, row \x27" ++ toString idxRow
      ++ "\x27 and cell \x27" ++ toString idxCell ++ "\x27, get \x27" ++ value
      ++ "\x27: " ++ err

/-- The `switch idxCell` of `ImportFromXLSX`: the event after the cell, or the
error `err` it sets. `parse` stands for `time.Parse(TIME_FORMAT, ·)`. -/
def importCell (parse : String → Except String Time) (idxCell : Nat) (value : String)
    (event : Event) : Except String Event :=
  if idxCell = START then
    match parse value with
    | .ok t => .ok { event with Start := t }
    | .error err => .error err
  else if idxCell = END then
    match parse value with
    | .ok t => .ok { event with End := t }
    | .error err => .error err
  else if idxCell = NAME then
    .ok { event with Name := value }
  else if idxCell = COLOR then
    if value = "" then
      .ok { event with Color := some ⟨0, 0, 0, 255⟩ }
    else
      match COLORS.lookup value with
      | some c => .ok { event with Color := some c }
      | none => .error "color not handled"
  else
    .ok event

/-- The loop over the cells of one row, from cell index `idxCell` on. -/
def importCells (parse : String → Except String Time) (sheetName : String) (idxRow : Nat) :
    Nat → List Cell → Event → Except ImportError Event
  | _, [], event => .ok event
  | idxCell, cell :: cells, event =>
    let value := cell.String
    match importCell parse idxCell value event with
    | .error err => .error (.InvalidValue sheetName idxRow idxCell value err)
    | .ok event => importCells parse sheetName idxRow (idxCell + 1) cells event

/-- The loop over the rows of one sheet, from row index `idxRow` on. -/
def importRows (parse : String → Except String Time) (sheetName : String) :
    Nat → List Row → EventsList → Except ImportError EventsList
  | _, [], events => .ok events
  | idxRow, row :: rows, events =>
    if idxRow = 0 then
      importRows parse sheetName (idxRow + 1) rows events
    else
      match importCells parse sheetName idxRow 0 row.Cells
          { Start := 0, End := 0, Name := "", Color := none } with
      | .error err => .error err
      | .ok event => importRows parse sheetName (idxRow + 1) rows (events.AddEvent event)

/-- The loop over the sheets; `list` holds the tracks of the sheets already read. -/
def importSheets (parse : String → Except String Time) :
    List Sheet → List EventsList → Except ImportError (List EventsList)
  | [], list => .ok list
  | sheet :: sheets, list =>
    match importRows parse sheet.Name 0 sheet.Rows { Name := sheet.Name, Events := [] } with
    | .error err => .error err
    | .ok events => importSheets parse sheets (list ++ [events])

/-- Function `ImportFromXLSX(path)`: the two values it returns, `none` being `nil`.
`openFile` stands for `xlsx.OpenFile`. -/
def ImportFromXLSX (openFile : String → Except String File)
    (parse : String → Except String Time) (path : String) :
    Option (List EventsList) × Option ImportError :=
  match openFile path with
  | .error err => (none, some (.OpenFile err))
  | .ok file =>
    match importSheets parse file.Sheets [] with
    | .error err => (none, some err)
    | .ok list => (some list, none)

/-! ## `time.Date` and `time.Parse` for the layout `TIME_FORMAT`

The importer is embedded with the parser as a parameter, so what is proved of it
holds for every parser. The definitions below model `time.Parse` on the layout
`2006-01-02 15:04:05` after the documentation of package `time`; they give that
parameter a value and build the instants of the examples. The text of the errors
is shortened. -/

/-- Whether `year` is a leap year of the proleptic Gregorian calendar. -/
def isLeap (year : Int) : Bool :=
  year % 4 = 0 && (year % 100 != 0 || year % 400 = 0)

/-- The number of days of `month` (1 to 12) in `year`. -/
def daysIn (month : Nat) (year : Int) : Nat :=
  if month = 2 then (if isLeap year then 29 else 28)
  else if month = 4 || month = 6 || month = 9 || month = 11 then 30
  else 31

/-- The number of days of `year` before the first day of `month`. -/
def daysBefore (month : Nat) (year : Int) : Nat :=
  ((List.range (month - 1)).map (fun m => daysIn (m + 1) year)).sum

/-- The number of days from 0001-01-01 to the first day of `year`. -/
def daysSinceEpoch (year : Int) : Int :=
  let y := year - 1
  365 * y + y / 4 - y / 100 + y / 400

/-- Function `time.Date(year, month, day, hour, min, sec, nsec, time.UTC)` on
arguments that are in range. -/
def Date (year : Int) (month day hour min sec nsec : Nat) : Time :=
  (((daysSinceEpoch year + daysBefore month year + ((day : Int) - 1)) * 24 + hour) * 60
    + min) * 60 * Second + sec * Second + nsec

/-- The value of a decimal digit. -/
def digit (c : Char) : Nat := c.toNat - 48

/-- The helper `getnum(s, fixed)`: a number of one or two digits at the head of
`s` (of two digits when `fixed`), and the rest of `s`. -/
def getnum (s : List Char) (fixed : Bool) : Option (Nat × List Char) :=
  match s with
  | [] => none
  | c :: rest =>
    if !c.isDigit then none
    else
      match rest with
      | d :: rest2 =>
        if d.isDigit then some (digit c * 10 + digit d, rest2)
        else if fixed then none else some (digit c, rest)
      | [] => if fixed then none else some (digit c, rest)

/-- The literal character `sep` at the head of `s`. -/
def skipChar (sep : Char) (s : List Char) : Option (List Char) :=
  match s with
  | c :: rest => if c = sep then some rest else none
  | [] => none

/-- A space of the layout: one or more spaces of the value. -/
def skipSpaces (s : List Char) : Option (List Char) :=
  match s with
  | c :: rest => if c = ' ' then some (rest.dropWhile (fun d => d = ' ')) else none
  | [] => none

/-- The four digits of the year. -/
def getYear (s : List Char) : Option (Int × List Char) :=
  match s with
  | a :: b :: c :: d :: rest =>
    if a.isDigit && b.isDigit && c.isDigit && d.isDigit then
      some (((digit a * 1000 + digit b * 100 + digit c * 10 + digit d : Nat) : Int), rest)
    else none
  | _ => none

/-- A fractional second after the seconds field, which the parser accepts
although the layout has none: its first nine digits, as nanoseconds. -/
def getFraction (s : List Char) : Nat × List Char :=
  match s with
  | p :: d :: rest =>
    if (p = '.' || p = ',') && d.isDigit then
      let digits := (d :: rest).takeWhile Char.isDigit
      let nine := (digits.take 9) ++ List.replicate (9 - digits.length) '0'
      (nine.foldl (fun n c => n * 10 + digit c) 0, (d :: rest).dropWhile Char.isDigit)
    else (0, s)
  | _ => (0, s)

/-- The fields of a timestamp in the layout `2006-01-02 15:04:05`. -/
def parseFields (value : String) : Option Time := do
  let (year, s) ← getYear value.toList
  let s ← skipChar '-' s
  let (month, s) ← getnum s true
  if month = 0 || 12 < month then none
  let s ← skipChar '-' s
  let (day, s) ← getnum s true
  let s ← skipSpaces s
  let (hour, s) ← getnum s false
  if 24 ≤ hour then none
  let s ← skipChar ':' s
  let (min, s) ← getnum s true
  if 60 ≤ min then none
  let s ← skipChar ':' s
  let (sec, s) ← getnum s true
  if 60 ≤ sec then none
  let (nsec, s) := getFraction s
  if !s.isEmpty then none
  if day < 1 || daysIn month year < day then none
  pure (Date year month day hour min sec nsec)

/-- The constant `TIME_FORMAT`. -/
def TIME_FORMAT : String := "2006-01-02 15:04:05"

/-- Function `time.Parse(TIME_FORMAT, value)`. -/
def parseTime (value : String) : Except String Time :=
  match parseFields value with
  | some t => .ok t
  | none => .error ("parsing time \"" ++ value ++ "\" as \"" ++ TIME_FORMAT ++ "\"")

/-! ## The arithmetic of `float64`

The definitions above compute in exact arithmetic. The program computes in
`float64`, the binary64 format of IEEE 754: the result of every operation is
the exact result rounded to the nearest value of 53 significant bits, ties to
the even one. The definitions below are the same functions with that rounding
after every operation. Not-a-number and the infinities have no counterpart: a
result of magnitude 2^1024 or more is not modelled. -/

/-- The nearest integer, the even one of the two when `x` is halfway. -/
def roundHalfEven (x : ℚ) : Int :=
  let f := ⌊x⌋
  let r := x - f
  if r < 1 / 2 then f
  else if 1 / 2 < r then f + 1
  else if f % 2 = 0 then f else f + 1

/-- The exponent of the unit in the last place of the `float64` nearest to `q`:
52 binary places below the leading bit, and not below 2^-1074, the smallest
positive `float64`. -/
def ulpExponent (q : ℚ) : Int := max (Int.log 2 |q| - 52) (-1074)

/-- The `float64` nearest to `q`, ties to even. -/
def round64 (q : ℚ) : ℚ :=
  if q = 0 then 0
  else (roundHalfEven (q / 2 ^ ulpExponent q) : ℚ) * 2 ^ ulpExponent q

/-- Method `d.Seconds()` in `float64`:
`float64(d / Second) + float64(d % Second) / 1e9`. -/
def Duration.Seconds64 (d : Duration) : ℚ :=
  let sec := Int.tdiv d Second
  let nsec := Int.tmod d Second
  round64 (round64 (sec : ℚ) + round64 (round64 (nsec : ℚ) / 1000000000))

/-- Method `e.Draw(dc, x, y, h, factor)` in `float64`. -/
def Event.Draw64 (e : Event) (x y h factor : ℚ) : List Op :=
  let duration := Time.Sub e.End e.Start
  Op.DrawRectangle x y (round64 (Duration.Seconds64 duration * factor)) h ::
    (match e.Color with
     | some c => [Op.SetColor c, Op.Fill]
     | none => [])

/-- One pass of the inner loop body of `Draw`, in `float64`. -/
def DrawState.drawEvent64 (timeline : TimeLine) (heightByEvent factor : ℚ)
    (s : DrawState) (event : Event) : DrawState :=
  { dc := s.dc ++ event.Draw64
      (round64 (Duration.Seconds64 (Time.Sub event.Start timeline.Start) * factor)) s.y
      heightByEvent factor,
    y := round64 (s.y + heightByEvent) }

/-- The inner loop of `Draw`, over the events of one track, in `float64`. -/
def DrawState.drawEvents64 (timeline : TimeLine) (heightByEvent factor : ℚ)
    (s : DrawState) (events : EventsList) : DrawState :=
  events.Events.foldl (DrawState.drawEvent64 timeline heightByEvent factor) s

/-- Function `Draw(timeline, width)` in `float64`, for a `width` that is a
`float64`: the calls made on the drawing context, in order. -/
def Draw64 (timeline : TimeLine) (width : ℚ) : List Op :=
  let totalDuration := Time.Sub timeline.End timeline.Start
  if Duration.Seconds64 totalDuration = 0 then []
  else
    let factor := round64 (width / Duration.Seconds64 totalDuration)
    let heightByEvent : ℚ := 10
    let height := round64 (heightByEvent * round64 (timeline.EventsNb : ℚ))
    let height := if height < 100 then 1000 else height
    let dc := [Op.NewContext (toInt width) (toInt height),
      Op.DrawRectangle 0 0 width height, Op.SetRGB255 255 255 255, Op.Fill]
    let s := timeline.List.foldl (DrawState.drawEvents64 timeline heightByEvent factor)
      { dc := dc, y := 0 }
    s.dc ++ [Op.SavePNG "out.png"]

/-! ## Notions of the specification, and examples -/

/-- Every event of every track, tracks in list order, events in track order. -/
def allEvents (list : List EventsList) : List Event :=
  (list.map (fun events => events.Events)).flatten

/-- The sum of the numbers of events of the tracks. -/
def eventCount (list : List EventsList) : Nat :=
  (list.map (fun events => events.Events.length)).sum

/-- Opaque red, as in `COLORS`. -/
def red : RGBA := ⟨255, 0, 0, 255⟩

/-- One track of two events, the first of which starts at 0001-01-01 00:00:00,
the zero instant. -/
def zeroStartTrack : EventsList :=
  { Name := "Sheet1",
    Events := [
      { Start := Date 1 1 1 0 0 0 0, End := Date 1 1 1 0 0 10 0, Name := "a", Color := some red },
      { Start := Date 1 1 1 0 0 5 0, End := Date 1 1 1 0 0 20 0, Name := "b", Color := some red }] }

/-- The track `zeroStartTrack` with its two events in the other order. -/
def zeroStartTrackSwapped : EventsList :=
  { Name := "Sheet1",
    Events := [
      { Start := Date 1 1 1 0 0 5 0, End := Date 1 1 1 0 0 20 0, Name := "b", Color := some red },
      { Start := Date 1 1 1 0 0 0 0, End := Date 1 1 1 0 0 10 0, Name := "a", Color := some red }] }

/-- A rectangle: the arguments of one call of `DrawRectangle`. -/
structure Rect where
  x : ℚ
  y : ℚ
  w : ℚ
  h : ℚ
deriving DecidableEq, Repr

/-- The rectangles drawn on a context, in the order of the calls. -/
def rectangles (dc : List Op) : List Rect :=
  dc.filterMap (fun op =>
    match op with
    | .DrawRectangle x y w h => some ⟨x, y, w, h⟩
    | _ => none)

/-- The rectangles drawn for the events: all but the first one, which is the
background. -/
def eventRectangles (dc : List Op) : List Rect := (rectangles dc).tail

/-- The size of the canvas a sequence of calls starts with, if it creates one. -/
def canvas (dc : List Op) : Option (Int × Int) :=
  match dc with
  | .NewContext width height :: _ => some (width, height)
  | _ => none

/-- The calls the loops of `Draw` make for a sequence of events, the first of
them at row offset `y`. -/
def rowOps (timeline : TimeLine) (heightByEvent factor : ℚ) : ℚ → List Event → List Op
  | _, [] => []
  | y, event :: events =>
    event.Draw (Duration.Seconds (Time.Sub event.Start timeline.Start) * factor) y
      heightByEvent factor ++ rowOps timeline heightByEvent factor (y + heightByEvent) events

/-- The canvas height `Draw` computes. -/
def canvasHeight (timeline : TimeLine) : ℚ :=
  if (10 : ℚ) * (timeline.EventsNb : ℚ) < 100 then 1000 else 10 * (timeline.EventsNb : ℚ)

/-- The rectangle of the event `e` drawn in row `k`, as `Draw` computes it. -/
def rowRect (timeline : TimeLine) (heightByEvent factor : ℚ) (k : Nat) (e : Event) : Rect :=
  { x := Duration.Seconds (Time.Sub e.Start timeline.Start) * factor,
    y := heightByEvent * k,
    w := Duration.Seconds (Time.Sub e.End e.Start) * factor,
    h := heightByEvent }

/-- The time elapsed from `u` to `t`, in seconds. -/
def elapsedSeconds (t u : Time) : ℚ := ((t - u : Int) : ℚ) / 1000000000

/-- Whether a number of nanoseconds fits a `Duration`. -/
def fitsDuration (d : Int) : Prop := minDuration ≤ d ∧ d ≤ maxDuration

instance (d : Int) : Decidable (fitsDuration d) :=
  inferInstanceAs (Decidable (minDuration ≤ d ∧ d ≤ maxDuration))

/-- An event of the years 1000 to 1100. -/
def medieval : Event :=
  { Start := Date 1000 1 1 0 0 0 0, End := Date 1100 1 1 0 0 0 0, Name := "medieval",
    Color := some red }

/-- An event of the years 1900 to 2000. -/
def modern : Event :=
  { Start := Date 1900 1 1 0 0 0 0, End := Date 2000 1 1 0 0 0 0, Name := "modern",
    Color := some red }

/-- One track that spans a thousand years. -/
def centuries : EventsList := { Name := "Sheet1", Events := [medieval, modern] }

/-- The event of scenario A: one hour of 2024-01-01, red. -/
def taskA : Event :=
  { Start := Date 2024 1 1 0 0 0 0, End := Date 2024 1 1 1 0 0 0, Name := "Task A",
    Color := some red }

/-- The track of scenario A. -/
def scenarioA : EventsList := { Name := "Sheet1", Events := [taskA] }

/-- The two sheets of scenario B, one event each, in disjoint hours. -/
def scenarioB : List EventsList :=
  [{ Name := "Sheet1",
     Events := [{ Start := Date 2024 1 1 0 0 0 0, End := Date 2024 1 1 1 0 0 0,
                  Name := "first", Color := some red }] },
   { Name := "Sheet2",
     Events := [{ Start := Date 2024 1 1 2 0 0 0, End := Date 2024 1 1 3 0 0 0,
                  Name := "second", Color := none }] }]

/-- The colour tokens the importer recognises. -/
def recognised : List String := ["black", "white", "red", "green", "blue", "yellow"]

/-- A cell with its place in the workbook: sheet name, row index, cell index,
and its text. -/
structure CellRef where
  sheet : String
  idxRow : Nat
  idxCell : Nat
  value : String
deriving DecidableEq, Repr

/-- What makes a cell of a data row offending, if anything: a start or end cell
(cell index 0 or 1) that does not parse, with the error of the parser, or a
colour cell (cell index 3) that is neither empty nor a recognised token. -/
def offence (parse : String → Except String Time) (idxCell : Nat) (value : String) :
    Option String :=
  if idxCell = 0 ∨ idxCell = 1 then
    match parse value with
    | .error err => some err
    | .ok _ => none
  else if idxCell = 3 ∧ value ≠ "" ∧ value ∉ recognised then some "color not handled"
  else none

/-- The error that identifies an offending cell. -/
def invalid (parse : String → Except String Time) (c : CellRef) : Option ImportError :=
  (offence parse c.idxCell c.value).map
    (fun err => ImportError.InvalidValue c.sheet c.idxRow c.idxCell c.value err)

/-- The cells of one row, in cell order, from cell index `idxCell` on. -/
def rowCells (sheet : String) (idxRow idxCell : Nat) (cells : List Cell) : List CellRef :=
  (cells.enumFrom idxCell).map (fun q => ⟨sheet, idxRow, q.1, q.2.String⟩)

/-- The cells of the rows of index 1 and more among `rows`, whose first row has
index `idxRow`, in row then cell order. -/
def rowsCells (sheet : String) (idxRow : Nat) (rows : List Row) : List CellRef :=
  ((rows.enumFrom idxRow).filter (fun p => decide (1 ≤ p.1))).flatMap
    (fun p => rowCells sheet p.1 0 p.2.Cells)

/-- The cells of the data rows (row index 1 and more) of a workbook, in sheet,
row, cell order. -/
def dataCells (file : File) : List CellRef :=
  file.Sheets.flatMap (fun sheet => rowsCells sheet.Name 0 sheet.Rows)

/-- The error of the first offending cell of a workbook, if it has one. -/
def firstInvalid (parse : String → Except String Time) (file : File) : Option ImportError :=
  (dataCells file).findSome? (invalid parse)

/-- The event a row starts from: the zero value of `Event`. -/
def zeroEvent : Event := { Start := 0, End := 0, Name := "", Color := none }

/-- A header row. -/
def header : Row := { Cells := [⟨"start"⟩, ⟨"end"⟩, ⟨"name"⟩, ⟨"color"⟩] }

/-- A workbook of one sheet, with a header row and one data row. -/
def book (cells : List Cell) : File :=
  { Sheets := [{ Name := "Sheet1", Rows := [header, { Cells := cells }] }] }

/-- The workbook of scenario C: the colour token of the row is `purple`. -/
def purpleBook : File :=
  book [⟨"2024-01-01 00:00:00"⟩, ⟨"2024-01-01 01:00:00"⟩, ⟨"Task A"⟩, ⟨"purple"⟩]

/-- A workbook whose data row has no colour cell. -/
def threeCellBook : File :=
  book [⟨"2024-01-01 00:00:00"⟩, ⟨"2024-01-01 01:00:00"⟩, ⟨"Task A"⟩]

/-- A workbook whose data row has an empty colour cell. -/
def emptyColourBook : File :=
  book [⟨"2024-01-01 00:00:00"⟩, ⟨"2024-01-01 01:00:00"⟩, ⟨"Task A"⟩, ⟨""⟩]

/-- A workbook whose data row has a start cell that does not parse, before a
colour cell that is not recognised. -/
def twoOffencesBook : File :=
  book [⟨"yesterday"⟩, ⟨"2024-01-01 01:00:00"⟩, ⟨"Task A"⟩, ⟨"purple"⟩]

/-- An `xlsx.OpenFile` that opens `file` whatever the path. -/
def opens (file : File) : String → Except String File := fun _ => .ok file

/-- A reordering of the tracks and of the events inside each track: the events
of each track are permuted, then the tracks are. -/
def Reordering (list list2 : List EventsList) : Prop :=
  ∃ mid, List.Forall₂ (fun a b => a.Events.Perm b.Events) list mid ∧ mid.Perm list2

/-- A list of two tracks without any event. -/
def emptyTracks : List EventsList :=
  [{ Name := "Sheet1", Events := [] }, { Name := "Sheet2", Events := [] }]

/-- An event whose end, 00:15, is before its start, 00:30. -/
def backwards : Event :=
  { Start := Date 2024 1 1 0 30 0 0, End := Date 2024 1 1 0 15 0 0, Name := "backwards",
    Color := some red }

/-- The event of scenario A followed by the event `backwards`. -/
def backwardsTrack : EventsList := { Name := "Sheet1", Events := [taskA, backwards] }

/-- An event of the year 1000. -/
def yearThousand : Event :=
  { Start := Date 1000 1 1 0 0 0 0, End := Date 1001 1 1 0 0 0 0, Name := "year 1000",
    Color := some red }

/-- An event of the years 1200 to 1400. -/
def twoCenturies : Event :=
  { Start := Date 1200 1 1 0 0 0 0, End := Date 1400 1 1 0 0 0 0, Name := "two centuries",
    Color := some red }

/-- One track that spans four hundred years, more than a `Duration` holds. -/
def fourCenturies : EventsList := { Name := "Sheet1", Events := [yearThousand, twoCenturies] }

/-- The event of a data row: its start and end are the timestamps of cells 0
and 1, its name the text of cell 2, its colour the colour of the token of
cell 3; a cell the row does not have leaves the zero value. -/
def rowEvent (parse : String → Except String Time) (row : Row) : Event :=
  { Start :=
      match row.Cells[0]? with
      | some cell =>
        (match parse cell.String with
         | .ok t => t
         | .error _ => 0)
      | none => 0,
    End :=
      match row.Cells[1]? with
      | some cell =>
        (match parse cell.String with
         | .ok t => t
         | .error _ => 0)
      | none => 0,
    Name :=
      match row.Cells[2]? with
      | some cell => cell.String
      | none => "",
    Color :=
      match row.Cells[3]? with
      | some cell => if cell.String = "" then some ⟨0, 0, 0, 255⟩ else COLORS.lookup cell.String
      | none => none }

/-- The track of a sheet: its name, and the events of its rows but the first. -/
def sheetTrack (parse : String → Except String Time) (sheet : Sheet) : EventsList :=
  { Name := sheet.Name, Events := sheet.Rows.tail.map (rowEvent parse) }

/-- What of a sheet is not its first row: its name and its other rows. -/
def sheetData (sheet : Sheet) : String × List Row := (sheet.Name, sheet.Rows.tail)

/-- The workbook of scenario D: one sheet with a header row only. -/
def headerBook : File := { Sheets := [{ Name := "Sheet1", Rows := [header] }] }

/-- The workbook of scenario A. -/
def scenarioABook : File :=
  book [⟨"2024-01-01 00:00:00"⟩, ⟨"2024-01-01 01:00:00"⟩, ⟨"Task A"⟩, ⟨"red"⟩]

/-- The workbook of scenario A with another first row, which is no header. -/
def scenarioABookOtherHeader : File :=
  { Sheets := [{ Name := "Sheet1",
                 Rows := [{ Cells := [⟨"yesterday"⟩, ⟨"tomorrow"⟩, ⟨"x"⟩, ⟨"purple"⟩] },
                          { Cells := [⟨"2024-01-01 00:00:00"⟩, ⟨"2024-01-01 01:00:00"⟩,
                                      ⟨"Task A"⟩, ⟨"red"⟩] }] }] }

/-- The calls the loops of `Draw` make in `float64` for a sequence of events,
the first of them at row offset `y`. -/
def rowOps64 (timeline : TimeLine) (heightByEvent factor : ℚ) : ℚ → List Event → List Op
  | _, [] => []
  | y, event :: events =>
    event.Draw64 (round64 (Duration.Seconds64 (Time.Sub event.Start timeline.Start) * factor)) y
      heightByEvent factor
      ++ rowOps64 timeline heightByEvent factor (round64 (y + heightByEvent)) events

/-- The row offset in `float64` after `n` more rows. -/
def rowY64 (heightByEvent : ℚ) : ℚ → Nat → ℚ
  | y, 0 => y
  | y, n + 1 => rowY64 heightByEvent (round64 (y + heightByEvent)) n

/-- An event of fifteen seconds. -/
def quarterMinute : Event :=
  { Start := Date 2024 1 1 0 0 0 0, End := Date 2024 1 1 0 0 15 0, Name := "quarter",
    Color := some red }

/-- One track with the event of fifteen seconds. -/
def quarterMinuteTrack : EventsList := { Name := "Sheet1", Events := [quarterMinute] }

/-- Whether the integer part of `f` fits an `int` of 64 bits, from -2^63 to
2^63 - 1, so that the language defines the result of the conversion `int(f)`. -/
def fitsInt (f : ℚ) : Prop := -(2 : ℚ) ^ 63 - 1 < f ∧ f < (2 : ℚ) ^ 63

instance (f : ℚ) : Decidable (fitsInt f) :=
  inferInstanceAs (Decidable (-(2 : ℚ) ^ 63 - 1 < f ∧ f < (2 : ℚ) ^ 63))

/-! ## Lemmas -/

theorem visit_eventsNb (s : Bounds) (event : Event) :
    (s.visit event).eventsNb = s.eventsNb + 1 := rfl

theorem foldl_visit_eventsNb (events : List Event) (s : Bounds) :
    (events.foldl Bounds.visit s).eventsNb = s.eventsNb + events.length := by
  induction events generalizing s with
  | nil => simp
  | cons e es ih =>
    rw [List.foldl_cons, ih, visit_eventsNb, List.length_cons]
    push_cast
    ring

theorem foldl_visitEvents_eventsNb (list : List EventsList) (s : Bounds) :
    (list.foldl Bounds.visitEvents s).eventsNb = s.eventsNb + eventCount list := by
  induction list generalizing s with
  | nil => simp [eventCount]
  | cons l ls ih =>
    rw [List.foldl_cons, ih, Bounds.visitEvents, foldl_visit_eventsNb]
    simp only [eventCount, List.map_cons, List.sum_cons]
    push_cast
    ring

theorem Seconds_eq (d : Duration) : Duration.Seconds d = (d : ℚ) / 1000000000 := by
  have h := Int.tdiv_add_tmod d Second
  have hq : ((Second * Int.tdiv d Second + Int.tmod d Second : Int) : ℚ) = (d : ℚ) := by
    rw [h]
  unfold Duration.Seconds
  simp only [Second] at hq ⊢
  push_cast at hq
  rw [← hq]
  ring

theorem Seconds_eq_zero_iff (d : Duration) : Duration.Seconds d = 0 ↔ d = 0 := by
  rw [Seconds_eq]
  constructor
  · intro h
    have h2 : (d : ℚ) = 0 := by
      rcases div_eq_zero_iff.mp h with h1 | h1
      · exact h1
      · norm_num at h1
    exact_mod_cast h2
  · intro h
    simp [h]

theorem maxDuration_eq : maxDuration = (9223372036854775807 : Int) := by
  norm_num [maxDuration]

theorem minDuration_eq : minDuration = (-9223372036854775808 : Int) := by
  norm_num [minDuration]

theorem Sub_eq_zero_iff (t u : Int) : Time.Sub t u = (0 : Int) ↔ t = u := by
  unfold Time.Sub
  simp only [maxDuration_eq, minDuration_eq]
  by_cases h1 : t - u > (9223372036854775807 : Int)
  · rw [if_pos h1]
    constructor
    · intro h
      exact absurd h (by decide)
    · intro h
      omega
  · rw [if_neg h1]
    by_cases h2 : t - u < (-9223372036854775808 : Int)
    · rw [if_pos h2]
      constructor
      · intro h
        exact absurd h (by decide)
      · intro h
        omega
    · rw [if_neg h2]
      exact sub_eq_zero

theorem Sub_of_fits (t u : Time) (hlo : minDuration ≤ t - u) (hhi : t - u ≤ maxDuration) :
    Time.Sub t u = t - u := by
  unfold Time.Sub
  simp only
  rw [if_neg (not_lt.mpr hhi), if_neg (not_lt.mpr hlo)]

theorem foldl_drawEvent (timeline : TimeLine) (h f : ℚ) (events : List Event) (s : DrawState) :
    events.foldl (DrawState.drawEvent timeline h f) s
      = { dc := s.dc ++ rowOps timeline h f s.y events, y := s.y + h * events.length } := by
  induction events generalizing s with
  | nil => simp [rowOps]
  | cons e es ih =>
    rw [List.foldl_cons, ih]
    simp only [DrawState.drawEvent, rowOps, List.append_assoc, List.length_cons]
    push_cast
    congr 1
    ring

theorem rowOps_append (timeline : TimeLine) (h f : ℚ) (a b : List Event) (y : ℚ) :
    rowOps timeline h f y (a ++ b)
      = rowOps timeline h f y a ++ rowOps timeline h f (y + h * a.length) b := by
  induction a generalizing y with
  | nil => simp [rowOps]
  | cons e es ih =>
    have hcons : (e :: es) ++ b = e :: (es ++ b) := rfl
    rw [hcons]
    simp only [rowOps, List.length_cons]
    rw [ih, List.append_assoc]
    push_cast
    congr 3
    ring

theorem foldl_drawEvents (timeline : TimeLine) (h f : ℚ) (list : List EventsList)
    (s : DrawState) :
    list.foldl (DrawState.drawEvents timeline h f) s
      = { dc := s.dc ++ rowOps timeline h f s.y (allEvents list),
          y := s.y + h * (allEvents list).length } := by
  induction list generalizing s with
  | nil => simp [rowOps, allEvents]
  | cons l ls ih =>
    rw [List.foldl_cons, ih, DrawState.drawEvents, foldl_drawEvent]
    have hall : allEvents (l :: ls) = l.Events ++ allEvents ls := by
      simp [allEvents]
    simp only [hall, rowOps_append, List.append_assoc, List.length_append]
    push_cast
    congr 1
    ring

theorem Draw_of_ne (timeline : TimeLine) (width : ℚ) (hne : timeline.Start ≠ timeline.End) :
    Draw timeline width
      = [Op.NewContext (toInt width) (toInt (canvasHeight timeline)),
          Op.DrawRectangle 0 0 width (canvasHeight timeline), Op.SetRGB255 255 255 255, Op.Fill]
        ++ rowOps timeline 10
            (width / Duration.Seconds (Time.Sub timeline.End timeline.Start)) 0
            (allEvents timeline.List)
        ++ [Op.SavePNG "out.png"] := by
  have h0 : ¬ Duration.Seconds (Time.Sub timeline.End timeline.Start) = 0 := by
    rw [Seconds_eq_zero_iff, Sub_eq_zero_iff]
    exact fun h => hne h.symm
  unfold Draw
  simp only [if_neg h0, foldl_drawEvents, canvasHeight]

theorem Draw_of_eq (timeline : TimeLine) (width : ℚ) (heq : timeline.Start = timeline.End) :
    Draw timeline width = [] := by
  have h0 : Duration.Seconds (Time.Sub timeline.End timeline.Start) = 0 := by
    rw [Seconds_eq_zero_iff, Sub_eq_zero_iff]
    exact heq.symm
  unfold Draw
  simp only [if_pos h0]

theorem toInt_intCast (z : Int) : toInt (z : ℚ) = z := by
  unfold toInt
  simp

theorem toInt_canvasHeight (timeline : TimeLine) :
    toInt (canvasHeight timeline)
      = if 10 * timeline.EventsNb < 100 then 1000 else 10 * timeline.EventsNb := by
  unfold canvasHeight
  have hiff : ((10 : ℚ) * (timeline.EventsNb : ℚ) < 100) ↔ (10 * timeline.EventsNb < 100) := by
    have hc : ((10 : ℚ) * (timeline.EventsNb : ℚ)) = ((10 * timeline.EventsNb : Int) : ℚ) := by
      push_cast
      ring
    rw [hc]
    have h100 : (100 : ℚ) = ((100 : Int) : ℚ) := by norm_num
    rw [h100, Int.cast_lt]
  by_cases h : 10 * timeline.EventsNb < 100
  · rw [if_pos (hiff.mpr h), if_pos h]
    exact toInt_intCast 1000
  · rw [if_neg (fun hq => h (hiff.mp hq)), if_neg h]
    have hc : ((10 : ℚ) * (timeline.EventsNb : ℚ)) = ((10 * timeline.EventsNb : Int) : ℚ) := by
      push_cast
      ring
    rw [hc]
    exact toInt_intCast _

theorem rectangles_append (a b : List Op) :
    rectangles (a ++ b) = rectangles a ++ rectangles b := by
  unfold rectangles
  exact List.filterMap_append _ _ _

theorem rectangles_Event_Draw (e : Event) (x y h f : ℚ) :
    rectangles (e.Draw x y h f)
      = [⟨x, y, Duration.Seconds (Time.Sub e.End e.Start) * f, h⟩] := by
  cases hc : e.Color <;> simp [rectangles, Event.Draw, hc]

theorem rectangles_rowOps (timeline : TimeLine) (h f : ℚ) (events : List Event) (n : Nat)
    (y : ℚ) (hy : y = h * n) :
    rectangles (rowOps timeline h f y events)
      = (events.enumFrom n).map (fun p => rowRect timeline h f p.1 p.2) := by
  induction events generalizing n y with
  | nil => simp [rowOps, rectangles]
  | cons e es ih =>
    simp only [rowOps, rectangles_append, rectangles_Event_Draw, List.enumFrom_cons,
      List.map_cons, List.singleton_append]
    rw [ih (n + 1) (y + h) (by rw [hy]; push_cast; ring)]
    simp only [rowRect, hy]

theorem eventRectangles_Draw (timeline : TimeLine) (width : ℚ)
    (hne : timeline.Start ≠ timeline.End) :
    eventRectangles (Draw timeline width)
      = (allEvents timeline.List).enum.map (fun p =>
          rowRect timeline 10
            (width / Duration.Seconds (Time.Sub timeline.End timeline.Start)) p.1 p.2) := by
  rw [Draw_of_ne timeline width hne]
  unfold eventRectangles
  rw [rectangles_append, rectangles_append,
    rectangles_rowOps timeline 10 _ (allEvents timeline.List) 0 0 (by simp)]
  simp [rectangles, List.enum]

theorem canvas_Draw (timeline : TimeLine) (width : ℚ) (hne : timeline.Start ≠ timeline.End) :
    canvas (Draw timeline width)
      = some (toInt width, toInt (canvasHeight timeline)) := by
  rw [Draw_of_ne timeline width hne]
  rfl

theorem Seconds_Sub_of_fits (t u : Time) (h : fitsDuration (t - u)) :
    Duration.Seconds (Time.Sub t u) = elapsedSeconds t u := by
  rw [Sub_of_fits t u h.1 h.2, Seconds_eq]
  rfl

theorem rectangles_Draw (timeline : TimeLine) (width : ℚ)
    (hne : timeline.Start ≠ timeline.End) :
    rectangles (Draw timeline width)
      = ⟨0, 0, width, canvasHeight timeline⟩ ::
        (allEvents timeline.List).enum.map (fun p =>
          rowRect timeline 10
            (width / Duration.Seconds (Time.Sub timeline.End timeline.Start)) p.1 p.2) := by
  rw [Draw_of_ne timeline width hne, rectangles_append, rectangles_append,
    rectangles_rowOps timeline 10 _ (allEvents timeline.List) 0 0 (by simp)]
  simp [rectangles, List.enum]

theorem toInt_thousand : toInt 1000 = 1000 := by
  simpa using toInt_intCast 1000

/-! ### `ImportFromXLSX` -/

theorem recognised_eq : recognised = COLORS.map Prod.fst := rfl

theorem lookup_COLORS_eq_none (value : String) (h : value ∉ recognised) :
    COLORS.lookup value = none := by
  rw [List.lookup_eq_none_iff]
  intro p hp
  have hne : value ≠ p.1 := by
    intro heq
    apply h
    rw [recognised_eq, heq]
    exact List.mem_map_of_mem Prod.fst hp
  simpa using hne

theorem lookup_COLORS_of_mem (value : String) (h : value ∈ recognised) :
    ∃ c, COLORS.lookup value = some c := by
  simp only [recognised, List.mem_cons, List.mem_singleton, List.not_mem_nil, or_false] at h
  rcases h with h | h | h | h | h | h <;> subst h <;> exact ⟨_, rfl⟩

theorem importCell_of_offence (parse : String → Except String Time) (idxCell : Nat)
    (value : String) (event : Event) (err : String)
    (h : offence parse idxCell value = some err) :
    importCell parse idxCell value event = .error err := by
  unfold offence at h
  unfold importCell
  simp only [START, END, NAME, COLOR]
  by_cases h0 : idxCell = 0
  · subst h0
    simp only [true_or, if_true] at h ⊢
    cases hp : parse value with
    | error e => rw [hp] at h; simp only [Option.some.injEq] at h; rw [h]
    | ok t => rw [hp] at h; exact absurd h (by simp)
  · by_cases h1 : idxCell = 1
    · subst h1
      simp only [or_true, if_true] at h ⊢
      simp only [if_neg h0]
      cases hp : parse value with
      | error e => rw [hp] at h; simp only [Option.some.injEq] at h; rw [h]
      | ok t => rw [hp] at h; exact absurd h (by simp)
    · have h01 : ¬ (idxCell = 0 ∨ idxCell = 1) := by omega
      rw [if_neg h01] at h
      by_cases h3 : idxCell = 3 ∧ value ≠ "" ∧ value ∉ recognised
      · rw [if_pos h3] at h
        obtain ⟨h3a, h3b, h3c⟩ := h3
        subst h3a
        simp only [Option.some.injEq] at h
        simp [h3b, lookup_COLORS_eq_none value h3c, h]
      · rw [if_neg h3] at h
        exact absurd h (by simp)

theorem importCell_of_no_offence (parse : String → Except String Time) (idxCell : Nat)
    (value : String) (event : Event)
    (h : offence parse idxCell value = none) :
    ∃ event2, importCell parse idxCell value event = .ok event2 := by
  unfold offence at h
  unfold importCell
  simp only [START, END, NAME, COLOR]
  by_cases h0 : idxCell = 0
  · subst h0
    simp only [true_or, if_true] at h ⊢
    cases hp : parse value with
    | error e => rw [hp] at h; exact absurd h (by simp)
    | ok t => exact ⟨_, rfl⟩
  · by_cases h1 : idxCell = 1
    · subst h1
      simp only [or_true, if_true] at h ⊢
      simp only [if_neg h0]
      cases hp : parse value with
      | error e => rw [hp] at h; exact absurd h (by simp)
      | ok t => exact ⟨_, rfl⟩
    · have h01 : ¬ (idxCell = 0 ∨ idxCell = 1) := by omega
      rw [if_neg h01] at h
      rw [if_neg h0, if_neg h1]
      by_cases h2 : idxCell = 2
      · rw [if_pos h2]
        exact ⟨_, rfl⟩
      · rw [if_neg h2]
        by_cases h3 : idxCell = 3
        · rw [if_pos h3]
          by_cases hv : value = ""
          · rw [if_pos hv]
            exact ⟨_, rfl⟩
          · rw [if_neg hv]
            have hrec : value ∈ recognised := by
              by_contra hnot
              rw [if_pos ⟨h3, hv, hnot⟩] at h
              exact absurd h (by simp)
            obtain ⟨c, hc⟩ := lookup_COLORS_of_mem value hrec
            rw [hc]
            exact ⟨_, rfl⟩
        · rw [if_neg h3]
          exact ⟨_, rfl⟩

theorem rowCells_cons (sheet : String) (idxRow idxCell : Nat) (cell : Cell) (cells : List Cell) :
    rowCells sheet idxRow idxCell (cell :: cells)
      = ⟨sheet, idxRow, idxCell, cell.String⟩ :: rowCells sheet idxRow (idxCell + 1) cells := rfl

theorem importCells_error (parse : String → Except String Time) (sheet : String) (idxRow : Nat)
    (cells : List Cell) (idxCell : Nat) (event : Event) (err : ImportError)
    (h : (rowCells sheet idxRow idxCell cells).findSome? (invalid parse) = some err) :
    importCells parse sheet idxRow idxCell cells event = .error err := by
  induction cells generalizing idxCell event with
  | nil => simp [rowCells] at h
  | cons cell cells ih =>
    rw [rowCells_cons, List.findSome?_cons] at h
    unfold importCells
    cases ho : offence parse idxCell cell.String with
    | some e =>
      simp only [invalid, ho, Option.map_some', Option.some.injEq] at h
      simp only [importCell_of_offence parse idxCell cell.String event e ho, h]
    | none =>
      simp only [invalid, ho, Option.map_none'] at h
      obtain ⟨event2, h2⟩ := importCell_of_no_offence parse idxCell cell.String event ho
      simp only [h2]
      exact ih (idxCell + 1) event2 h

theorem importCells_ok (parse : String → Except String Time) (sheet : String) (idxRow : Nat)
    (cells : List Cell) (idxCell : Nat) (event : Event)
    (h : (rowCells sheet idxRow idxCell cells).findSome? (invalid parse) = none) :
    ∃ event2, importCells parse sheet idxRow idxCell cells event = .ok event2 := by
  induction cells generalizing idxCell event with
  | nil => exact ⟨event, rfl⟩
  | cons cell cells ih =>
    rw [rowCells_cons, List.findSome?_cons] at h
    unfold importCells
    cases ho : offence parse idxCell cell.String with
    | some e => simp [invalid, ho] at h
    | none =>
      simp only [invalid, ho, Option.map_none'] at h
      obtain ⟨event2, h2⟩ := importCell_of_no_offence parse idxCell cell.String event ho
      simp only [h2]
      exact ih (idxCell + 1) event2 h

theorem rowsCells_cons_zero (sheet : String) (row : Row) (rows : List Row) :
    rowsCells sheet 0 (row :: rows) = rowsCells sheet 1 rows := by
  simp [rowsCells, List.enumFrom_cons]

theorem rowsCells_cons_succ (sheet : String) (idxRow : Nat) (row : Row) (rows : List Row)
    (h : idxRow ≠ 0) :
    rowsCells sheet idxRow (row :: rows)
      = rowCells sheet idxRow 0 row.Cells ++ rowsCells sheet (idxRow + 1) rows := by
  have h1 : 1 ≤ idxRow := Nat.one_le_iff_ne_zero.mpr h
  simp [rowsCells, List.enumFrom_cons, List.filter_cons, h1]

theorem importRows_error (parse : String → Except String Time) (sheet : String)
    (rows : List Row) (idxRow : Nat) (events : EventsList) (err : ImportError)
    (h : (rowsCells sheet idxRow rows).findSome? (invalid parse) = some err) :
    importRows parse sheet idxRow rows events = .error err := by
  induction rows generalizing idxRow events with
  | nil => simp [rowsCells] at h
  | cons row rows ih =>
    unfold importRows
    by_cases h0 : idxRow = 0
    · subst h0
      rw [rowsCells_cons_zero] at h
      simp only [if_true]
      exact ih 1 events h
    · rw [rowsCells_cons_succ sheet idxRow row rows h0, List.findSome?_append] at h
      simp only [if_neg h0]
      cases hr : (rowCells sheet idxRow 0 row.Cells).findSome? (invalid parse) with
      | some e =>
        rw [hr] at h
        simp only [Option.or_some, Option.some.injEq] at h
        rw [importCells_error parse sheet idxRow row.Cells 0 _ e hr, h]
      | none =>
        rw [hr] at h
        simp only [Option.none_or] at h
        obtain ⟨event, h2⟩ := importCells_ok parse sheet idxRow row.Cells 0
          { Start := 0, End := 0, Name := "", Color := none } hr
        simp only [h2]
        exact ih (idxRow + 1) _ h

theorem importRows_ok (parse : String → Except String Time) (sheet : String)
    (rows : List Row) (idxRow : Nat) (events : EventsList)
    (h : (rowsCells sheet idxRow rows).findSome? (invalid parse) = none) :
    ∃ events2, importRows parse sheet idxRow rows events = .ok events2 := by
  induction rows generalizing idxRow events with
  | nil => exact ⟨events, rfl⟩
  | cons row rows ih =>
    unfold importRows
    by_cases h0 : idxRow = 0
    · subst h0
      rw [rowsCells_cons_zero] at h
      simp only [if_true]
      exact ih 1 events h
    · rw [rowsCells_cons_succ sheet idxRow row rows h0, List.findSome?_append] at h
      simp only [if_neg h0]
      cases hr : (rowCells sheet idxRow 0 row.Cells).findSome? (invalid parse) with
      | some e => simp [hr] at h
      | none =>
        rw [hr] at h
        simp only [Option.none_or] at h
        obtain ⟨event, h2⟩ := importCells_ok parse sheet idxRow row.Cells 0
          { Start := 0, End := 0, Name := "", Color := none } hr
        simp only [h2]
        exact ih (idxRow + 1) _ h

theorem importSheets_error (parse : String → Except String Time) (sheets : List Sheet)
    (list : List EventsList) (err : ImportError)
    (h : (dataCells ⟨sheets⟩).findSome? (invalid parse) = some err) :
    importSheets parse sheets list = .error err := by
  induction sheets generalizing list with
  | nil => simp [dataCells] at h
  | cons sheet sheets ih =>
    simp only [dataCells, List.flatMap_cons, List.findSome?_append] at h
    unfold importSheets
    cases hr : (rowsCells sheet.Name 0 sheet.Rows).findSome? (invalid parse) with
    | some e =>
      rw [hr] at h
      simp only [Option.or_some, Option.some.injEq] at h
      rw [importRows_error parse sheet.Name sheet.Rows 0 _ e hr, h]
    | none =>
      rw [hr] at h
      simp only [Option.none_or] at h
      obtain ⟨events, h2⟩ := importRows_ok parse sheet.Name sheet.Rows 0
        { Name := sheet.Name, Events := [] } hr
      simp only [h2]
      exact ih _ h

theorem importSheets_ok (parse : String → Except String Time) (sheets : List Sheet)
    (list : List EventsList)
    (h : (dataCells ⟨sheets⟩).findSome? (invalid parse) = none) :
    ∃ list2, importSheets parse sheets list = .ok list2 := by
  induction sheets generalizing list with
  | nil => exact ⟨list, rfl⟩
  | cons sheet sheets ih =>
    simp only [dataCells, List.flatMap_cons, List.findSome?_append] at h
    unfold importSheets
    cases hr : (rowsCells sheet.Name 0 sheet.Rows).findSome? (invalid parse) with
    | some e => simp [hr] at h
    | none =>
      rw [hr] at h
      simp only [Option.none_or] at h
      obtain ⟨events, h2⟩ := importRows_ok parse sheet.Name sheet.Rows 0
        { Name := sheet.Name, Events := [] } hr
      simp only [h2]
      exact ih _ h

theorem ImportFromXLSX_error (openFile : String → Except String File)
    (parse : String → Except String Time) (path : String) (file : File) (err : ImportError)
    (hopen : openFile path = .ok file) (h : firstInvalid parse file = some err) :
    ImportFromXLSX openFile parse path = (none, some err) := by
  unfold ImportFromXLSX
  simp only [hopen]
  rw [importSheets_error parse file.Sheets [] err h]

theorem ImportFromXLSX_ok (openFile : String → Except String File)
    (parse : String → Except String Time) (path : String) (file : File)
    (hopen : openFile path = .ok file) (h : firstInvalid parse file = none) :
    ∃ list, ImportFromXLSX openFile parse path = (some list, none) := by
  unfold ImportFromXLSX
  simp only [hopen]
  obtain ⟨list, h2⟩ := importSheets_ok parse file.Sheets [] h
  exact ⟨list, by rw [h2]⟩

theorem ImportFromXLSX_first_offending (openFile : String → Except String File)
    (parse : String → Except String Time) (path : String) (file : File)
    (before after : List CellRef) (c : CellRef) (cause : String)
    (hopen : openFile path = .ok file)
    (hsplit : dataCells file = before ++ c :: after)
    (hbefore : ∀ b ∈ before, offence parse b.idxCell b.value = none)
    (hc : offence parse c.idxCell c.value = some cause) :
    ImportFromXLSX openFile parse path
      = (none, some (.InvalidValue c.sheet c.idxRow c.idxCell c.value cause)) := by
  apply ImportFromXLSX_error openFile parse path file _ hopen
  unfold firstInvalid
  rw [List.findSome?_eq_some_iff]
  refine ⟨before, c, after, hsplit, ?_, ?_⟩
  · simp [invalid, hc]
  · intro b hb
    simp [invalid, hbefore b hb]

theorem ImportFromXLSX_no_offending (openFile : String → Except String File)
    (parse : String → Except String Time) (path : String) (file : File)
    (hopen : openFile path = .ok file)
    (hnone : ∀ c ∈ dataCells file, offence parse c.idxCell c.value = none) :
    ∃ list, ImportFromXLSX openFile parse path = (some list, none) := by
  apply ImportFromXLSX_ok openFile parse path file hopen
  unfold firstInvalid
  rw [List.findSome?_eq_none_iff]
  intro c hc
  simp [invalid, hnone c hc]

theorem ImportFromXLSX_some_offending (openFile : String → Except String File)
    (parse : String → Except String Time) (path : String) (file : File)
    (hopen : openFile path = .ok file)
    (hsome : ∃ c ∈ dataCells file, offence parse c.idxCell c.value ≠ none) :
    ∃ before c after cause, dataCells file = before ++ c :: after
      ∧ (∀ b ∈ before, offence parse b.idxCell b.value = none)
      ∧ offence parse c.idxCell c.value = some cause
      ∧ ImportFromXLSX openFile parse path
        = (none, some (.InvalidValue c.sheet c.idxRow c.idxCell c.value cause)) := by
  cases hf : firstInvalid parse file with
  | none =>
    unfold firstInvalid at hf
    rw [List.findSome?_eq_none_iff] at hf
    obtain ⟨c, hc, hne⟩ := hsome
    have h2 := hf c hc
    simp only [invalid, Option.map_eq_none'] at h2
    exact absurd h2 hne
  | some err =>
    have hres := ImportFromXLSX_error openFile parse path file err hopen hf
    unfold firstInvalid at hf
    rw [List.findSome?_eq_some_iff] at hf
    obtain ⟨l1, c, l2, hsplit, hc, hl1⟩ := hf
    simp only [invalid, Option.map_eq_some'] at hc
    obtain ⟨cause, hcause, herr⟩ := hc
    refine ⟨l1, c, l2, cause, hsplit, ?_, hcause, ?_⟩
    · intro b hb
      have h2 := hl1 b hb
      simpa only [invalid, Option.map_eq_none'] using h2
    · rw [hres, herr]

theorem importCell_color (parse : String → Except String Time) (idxCell : Nat)
    (value : String) (event event2 : Event) (hne : idxCell ≠ 3)
    (h : importCell parse idxCell value event = .ok event2) :
    event2.Color = event.Color := by
  unfold importCell at h
  simp only [START, END, NAME, COLOR] at h
  by_cases h0 : idxCell = 0
  · rw [if_pos h0] at h
    cases hp : parse value with
    | error e => rw [hp] at h; exact absurd h (by simp)
    | ok t =>
      rw [hp] at h
      simp only [Except.ok.injEq] at h
      rw [← h]
  · rw [if_neg h0] at h
    by_cases h1 : idxCell = 1
    · rw [if_pos h1] at h
      cases hp : parse value with
      | error e => rw [hp] at h; exact absurd h (by simp)
      | ok t =>
        rw [hp] at h
        simp only [Except.ok.injEq] at h
        rw [← h]
    · rw [if_neg h1] at h
      by_cases h2 : idxCell = 2
      · rw [if_pos h2] at h
        simp only [Except.ok.injEq] at h
        rw [← h]
      · rw [if_neg h2, if_neg hne] at h
        simp only [Except.ok.injEq] at h
        rw [← h]

theorem importCells_color (parse : String → Except String Time) (sheet : String) (idxRow : Nat)
    (cells : List Cell) (idxCell : Nat) (event event2 : Event)
    (hlen : idxCell + cells.length ≤ 3)
    (h : importCells parse sheet idxRow idxCell cells event = .ok event2) :
    event2.Color = event.Color := by
  induction cells generalizing idxCell event with
  | nil =>
    unfold importCells at h
    simp only [Except.ok.injEq] at h
    rw [h]
  | cons cell cells ih =>
    unfold importCells at h
    simp only [List.length_cons] at hlen
    cases hc : importCell parse idxCell cell.String event with
    | error e => simp [hc] at h
    | ok event1 =>
      simp only [hc] at h
      rw [ih (idxCell + 1) event1 (by omega) h]
      exact importCell_color parse idxCell cell.String event event1 (by omega) hc

theorem importRows_events (parse : String → Except String Time) (sheet : String)
    (rows : List Row) (idxRow : Nat) (events events2 : EventsList) (hidx : 1 ≤ idxRow)
    (h : importRows parse sheet idxRow rows events = .ok events2) :
    ∃ evs, events2 = { Name := events.Name, Events := events.Events ++ evs }
      ∧ evs.length = rows.length
      ∧ ∀ (j : Nat) (row : Row), rows[j]? = some row →
          ∃ ev, evs[j]? = some ev
            ∧ importCells parse sheet (idxRow + j) 0 row.Cells zeroEvent = .ok ev := by
  induction rows generalizing idxRow events with
  | nil =>
    unfold importRows at h
    simp only [Except.ok.injEq] at h
    exact ⟨[], by simp [← h], rfl, by simp⟩
  | cons row rows ih =>
    unfold importRows at h
    have h0 : idxRow ≠ 0 := by omega
    simp only [if_neg h0] at h
    cases hc : importCells parse sheet idxRow 0 row.Cells
        { Start := 0, End := 0, Name := "", Color := none } with
    | error e => simp [hc] at h
    | ok ev =>
      simp only [hc] at h
      obtain ⟨evs, heq, hlen, hget⟩ := ih (idxRow + 1) (events.AddEvent ev) (by omega) h
      refine ⟨ev :: evs, ?_, by simp [hlen], ?_⟩
      · rw [heq]
        simp [EventsList.AddEvent]
      · intro j r hj
        cases j with
        | zero =>
          simp only [List.getElem?_cons_zero, Option.some.injEq] at hj
          subst hj
          exact ⟨ev, List.getElem?_cons_zero, hc⟩
        | succ j =>
          simp only [List.getElem?_cons_succ] at hj
          obtain ⟨ev2, hev2, himp⟩ := hget j r hj
          refine ⟨ev2, by simpa using hev2, ?_⟩
          have hidx2 : idxRow + (j + 1) = idxRow + 1 + j := by omega
          rw [hidx2]
          exact himp

theorem importRows_sheet (parse : String → Except String Time) (sheet : Sheet)
    (track : EventsList)
    (h : importRows parse sheet.Name 0 sheet.Rows { Name := sheet.Name, Events := [] }
      = .ok track) :
    track.Name = sheet.Name
      ∧ track.Events.length = sheet.Rows.length - 1
      ∧ ∀ (j : Nat) (row : Row), sheet.Rows[j + 1]? = some row →
          ∃ ev, track.Events[j]? = some ev
            ∧ importCells parse sheet.Name (j + 1) 0 row.Cells zeroEvent = .ok ev := by
  cases hrows : sheet.Rows with
  | nil =>
    rw [hrows] at h
    unfold importRows at h
    simp only [Except.ok.injEq] at h
    simp [← h]
  | cons row0 rows =>
    rw [hrows] at h
    unfold importRows at h
    simp only [if_true] at h
    obtain ⟨evs, heq, hlen, hget⟩ := importRows_events parse sheet.Name rows 1 _ track
      (Nat.le_refl 1) h
    refine ⟨by rw [heq], by simp [heq, hlen], ?_⟩
    intro j row hj
    simp only [List.getElem?_cons_succ] at hj
    obtain ⟨ev, hev, himp⟩ := hget j row hj
    refine ⟨ev, by simpa [heq] using hev, ?_⟩
    rw [Nat.add_comm j 1]
    exact himp

theorem importSheets_tracks (parse : String → Except String Time) (sheets : List Sheet)
    (list list2 : List EventsList)
    (h : importSheets parse sheets list = .ok list2) :
    ∃ tracks, list2 = list ++ tracks
      ∧ tracks.length = sheets.length
      ∧ ∀ (i : Nat) (sheet : Sheet), sheets[i]? = some sheet →
          ∃ track, tracks[i]? = some track
            ∧ importRows parse sheet.Name 0 sheet.Rows { Name := sheet.Name, Events := [] }
              = .ok track := by
  induction sheets generalizing list with
  | nil =>
    unfold importSheets at h
    simp only [Except.ok.injEq] at h
    exact ⟨[], by simp [h], rfl, by simp⟩
  | cons sheet sheets ih =>
    unfold importSheets at h
    cases hr : importRows parse sheet.Name 0 sheet.Rows { Name := sheet.Name, Events := [] } with
    | error e => simp [hr] at h
    | ok track =>
      simp only [hr] at h
      obtain ⟨tracks, heq, hlen, hget⟩ := ih (list ++ [track]) h
      refine ⟨track :: tracks, by simp [heq], by simp [hlen], ?_⟩
      intro i s hi
      cases i with
      | zero =>
        simp only [List.getElem?_cons_zero, Option.some.injEq] at hi
        subst hi
        exact ⟨track, List.getElem?_cons_zero, hr⟩
      | succ i =>
        simp only [List.getElem?_cons_succ] at hi
        obtain ⟨t, ht, himp⟩ := hget i s hi
        exact ⟨t, by simpa using ht, himp⟩

theorem ImportFromXLSX_tracks (openFile : String → Except String File)
    (parse : String → Except String Time) (path : String) (file : File)
    (list : List EventsList)
    (hopen : openFile path = .ok file)
    (h : (ImportFromXLSX openFile parse path).1 = some list) :
    ImportFromXLSX openFile parse path = (some list, none)
      ∧ list.length = file.Sheets.length
      ∧ ∀ (i : Nat) (sheet : Sheet), file.Sheets[i]? = some sheet →
          ∃ track, list[i]? = some track
            ∧ importRows parse sheet.Name 0 sheet.Rows { Name := sheet.Name, Events := [] }
              = .ok track := by
  unfold ImportFromXLSX at h ⊢
  simp only [hopen] at h ⊢
  cases hs : importSheets parse file.Sheets [] with
  | error e => simp [hs] at h
  | ok list2 =>
    simp only [hs, Option.some.injEq] at h
    subst h
    obtain ⟨tracks, heq, hlen, hget⟩ := importSheets_tracks parse file.Sheets [] list2 hs
    simp only [List.nil_append] at heq
    subst heq
    exact ⟨rfl, hlen, hget⟩

/-! ### `NewTimeLine`: the bounds -/

theorem allEvents_cons (l : EventsList) (ls : List EventsList) :
    allEvents (l :: ls) = l.Events ++ allEvents ls := by
  simp [allEvents]

theorem foldl_visitEvents_eq (list : List EventsList) (s : Bounds) :
    list.foldl Bounds.visitEvents s = (allEvents list).foldl Bounds.visit s := by
  induction list generalizing s with
  | nil => rfl
  | cons l ls ih =>
    rw [List.foldl_cons, ih, allEvents_cons, List.foldl_append]
    rfl

theorem NewTimeLine_eq (list : List EventsList) :
    NewTimeLine list
      = { List := list,
          Start := ((allEvents list).foldl Bounds.visit ⟨0, 0, 0⟩).start,
          End := ((allEvents list).foldl Bounds.visit ⟨0, 0, 0⟩).stop,
          EventsNb := ((allEvents list).foldl Bounds.visit ⟨0, 0, 0⟩).eventsNb } := by
  unfold NewTimeLine
  simp only [foldl_visitEvents_eq]

theorem visit_start (s : Bounds) (e : Event) :
    (s.visit e).start = if s.start = (0 : Int) ∨ e.Start < s.start then e.Start else s.start := by
  unfold Bounds.visit Time.IsZero Time.After
  by_cases h0 : s.start = (0 : Int)
  · simp [h0]
  · by_cases h1 : e.Start < s.start
    · simp [h0, h1]
    · simp [h0, h1]

theorem visit_stop (s : Bounds) (e : Event) :
    (s.visit e).stop = if s.stop = (0 : Int) ∨ s.stop < e.End then e.End else s.stop := by
  unfold Bounds.visit Time.IsZero Time.Before
  by_cases h0 : s.stop = (0 : Int)
  · simp [h0]
  · by_cases h1 : s.stop < e.End
    · simp [h0, h1]
    · simp [h0, h1]

theorem visit_start_le (s : Bounds) (e : Event) : (s.visit e).start ≤ e.Start := by
  rw [visit_start]
  split_ifs with h
  · exact le_refl _
  · push_neg at h
    exact h.2

theorem visit_le_stop (s : Bounds) (e : Event) : e.End ≤ (s.visit e).stop := by
  rw [visit_stop]
  split_ifs with h
  · exact le_refl _
  · push_neg at h
    exact h.2

theorem foldl_visit_start_min (es : List Event) (s : Bounds)
    (hs : s.start ≠ (0 : Int)) (hes : ∀ e ∈ es, e.Start ≠ (0 : Int)) :
    (es.foldl Bounds.visit s).start ≠ (0 : Int)
      ∧ (es.foldl Bounds.visit s).start ≤ s.start
      ∧ (∀ e ∈ es, (es.foldl Bounds.visit s).start ≤ e.Start)
      ∧ ((es.foldl Bounds.visit s).start = s.start
          ∨ ∃ e ∈ es, (es.foldl Bounds.visit s).start = e.Start) := by
  induction es generalizing s with
  | nil => exact ⟨hs, le_refl _, by simp, Or.inl rfl⟩
  | cons e es ih =>
    have he : e.Start ≠ (0 : Int) := hes e (List.mem_cons_self _ _)
    have hv : (s.visit e).start ≠ (0 : Int) := by
      rw [visit_start]
      split_ifs
      · exact he
      · exact hs
    have hvle : (s.visit e).start ≤ s.start := by
      rw [visit_start]
      split_ifs with h
      · rcases h with h | h
        · exact absurd h hs
        · exact le_of_lt h
      · exact le_refl _
    have hveq : (s.visit e).start = s.start ∨ (s.visit e).start = e.Start := by
      rw [visit_start]
      split_ifs
      · exact Or.inr rfl
      · exact Or.inl rfl
    obtain ⟨h1, h2, h3, h4⟩ := ih (s.visit e) hv (fun x hx => hes x (List.mem_cons_of_mem _ hx))
    rw [List.foldl_cons]
    refine ⟨h1, le_trans h2 hvle, ?_, ?_⟩
    · intro x hx
      rcases List.mem_cons.mp hx with hx | hx
      · rw [hx]
        exact le_trans h2 (visit_start_le s e)
      · exact h3 x hx
    · rcases h4 with h4 | ⟨x, hx, h4⟩
      · rcases hveq with hveq | hveq
        · exact Or.inl (h4.trans hveq)
        · exact Or.inr ⟨e, List.mem_cons_self _ _, h4.trans hveq⟩
      · exact Or.inr ⟨x, List.mem_cons_of_mem _ hx, h4⟩

theorem foldl_visit_stop_max (es : List Event) (s : Bounds)
    (hs : s.stop ≠ (0 : Int)) (hes : ∀ e ∈ es, e.End ≠ (0 : Int)) :
    (es.foldl Bounds.visit s).stop ≠ (0 : Int)
      ∧ s.stop ≤ (es.foldl Bounds.visit s).stop
      ∧ (∀ e ∈ es, e.End ≤ (es.foldl Bounds.visit s).stop)
      ∧ ((es.foldl Bounds.visit s).stop = s.stop
          ∨ ∃ e ∈ es, (es.foldl Bounds.visit s).stop = e.End) := by
  induction es generalizing s with
  | nil => exact ⟨hs, le_refl _, by simp, Or.inl rfl⟩
  | cons e es ih =>
    have he : e.End ≠ (0 : Int) := hes e (List.mem_cons_self _ _)
    have hv : (s.visit e).stop ≠ (0 : Int) := by
      rw [visit_stop]
      split_ifs
      · exact he
      · exact hs
    have hvle : s.stop ≤ (s.visit e).stop := by
      rw [visit_stop]
      split_ifs with h
      · rcases h with h | h
        · exact absurd h hs
        · exact le_of_lt h
      · exact le_refl _
    have hveq : (s.visit e).stop = s.stop ∨ (s.visit e).stop = e.End := by
      rw [visit_stop]
      split_ifs
      · exact Or.inr rfl
      · exact Or.inl rfl
    obtain ⟨h1, h2, h3, h4⟩ := ih (s.visit e) hv (fun x hx => hes x (List.mem_cons_of_mem _ hx))
    rw [List.foldl_cons]
    refine ⟨h1, le_trans hvle h2, ?_, ?_⟩
    · intro x hx
      rcases List.mem_cons.mp hx with hx | hx
      · rw [hx]
        exact le_trans (visit_le_stop s e) h2
      · exact h3 x hx
    · rcases h4 with h4 | ⟨x, hx, h4⟩
      · rcases hveq with hveq | hveq
        · exact Or.inl (h4.trans hveq)
        · exact Or.inr ⟨e, List.mem_cons_self _ _, h4.trans hveq⟩
      · exact Or.inr ⟨x, List.mem_cons_of_mem _ hx, h4⟩

theorem foldl_visit_start_of_unset (es : List Event) (hne : es ≠ [])
    (hes : ∀ e ∈ es, e.Start ≠ (0 : Int)) (stop : Time) (n : Int) :
    (∃ e ∈ es, (es.foldl Bounds.visit ⟨0, stop, n⟩).start = e.Start)
      ∧ ∀ e ∈ es, (es.foldl Bounds.visit ⟨0, stop, n⟩).start ≤ e.Start := by
  cases es with
  | nil => exact absurd rfl hne
  | cons e es =>
    have he : e.Start ≠ (0 : Int) := hes e (List.mem_cons_self _ _)
    have hv : ((⟨0, stop, n⟩ : Bounds).visit e).start = e.Start := by
      rw [visit_start]
      simp
    obtain ⟨_, h2, h3, h4⟩ := foldl_visit_start_min es ((⟨0, stop, n⟩ : Bounds).visit e)
      (by rw [hv]; exact he) (fun x hx => hes x (List.mem_cons_of_mem _ hx))
    rw [List.foldl_cons]
    rw [hv] at h2 h4
    constructor
    · rcases h4 with h4 | ⟨x, hx, h4⟩
      · exact ⟨e, List.mem_cons_self _ _, h4⟩
      · exact ⟨x, List.mem_cons_of_mem _ hx, h4⟩
    · intro x hx
      rcases List.mem_cons.mp hx with hx | hx
      · rw [hx]
        exact h2
      · exact h3 x hx

theorem foldl_visit_stop_of_unset (es : List Event) (hne : es ≠ [])
    (hes : ∀ e ∈ es, e.End ≠ (0 : Int)) (start : Time) (n : Int) :
    (∃ e ∈ es, (es.foldl Bounds.visit ⟨start, 0, n⟩).stop = e.End)
      ∧ ∀ e ∈ es, e.End ≤ (es.foldl Bounds.visit ⟨start, 0, n⟩).stop := by
  cases es with
  | nil => exact absurd rfl hne
  | cons e es =>
    have he : e.End ≠ (0 : Int) := hes e (List.mem_cons_self _ _)
    have hv : ((⟨start, 0, n⟩ : Bounds).visit e).stop = e.End := by
      rw [visit_stop]
      simp
    obtain ⟨_, h2, h3, h4⟩ := foldl_visit_stop_max es ((⟨start, 0, n⟩ : Bounds).visit e)
      (by rw [hv]; exact he) (fun x hx => hes x (List.mem_cons_of_mem _ hx))
    rw [List.foldl_cons]
    rw [hv] at h2 h4
    constructor
    · rcases h4 with h4 | ⟨x, hx, h4⟩
      · exact ⟨e, List.mem_cons_self _ _, h4⟩
      · exact ⟨x, List.mem_cons_of_mem _ hx, h4⟩
    · intro x hx
      rcases List.mem_cons.mp hx with hx | hx
      · rw [hx]
        exact h2
      · exact h3 x hx

theorem NewTimeLine_Start_min (list : List EventsList) (hne : allEvents list ≠ [])
    (hes : ∀ e ∈ allEvents list, e.Start ≠ (0 : Int)) :
    (∃ e ∈ allEvents list, (NewTimeLine list).Start = e.Start)
      ∧ ∀ e ∈ allEvents list, (NewTimeLine list).Start ≤ e.Start := by
  rw [NewTimeLine_eq]
  exact foldl_visit_start_of_unset (allEvents list) hne hes 0 0

theorem NewTimeLine_End_max (list : List EventsList) (hne : allEvents list ≠ [])
    (hes : ∀ e ∈ allEvents list, e.End ≠ (0 : Int)) :
    (∃ e ∈ allEvents list, (NewTimeLine list).End = e.End)
      ∧ ∀ e ∈ allEvents list, e.End ≤ (NewTimeLine list).End := by
  rw [NewTimeLine_eq]
  exact foldl_visit_stop_of_unset (allEvents list) hne hes 0 0

theorem NewTimeLine_EventsNb (list : List EventsList) :
    (NewTimeLine list).EventsNb = ((allEvents list).length : Int) := by
  rw [NewTimeLine_eq]
  simp only
  rw [foldl_visit_eventsNb]
  simp

theorem NewTimeLine_perm (list list2 : List EventsList)
    (hne : allEvents list ≠ [])
    (hnz : ∀ e ∈ allEvents list, e.Start ≠ (0 : Int) ∧ e.End ≠ (0 : Int))
    (hperm : (allEvents list).Perm (allEvents list2)) :
    (NewTimeLine list2).Start = (NewTimeLine list).Start
      ∧ (NewTimeLine list2).End = (NewTimeLine list).End
      ∧ (NewTimeLine list2).EventsNb = (NewTimeLine list).EventsNb := by
  have hne2 : allEvents list2 ≠ [] := by
    intro h
    rw [h] at hperm
    exact hne hperm.eq_nil
  have hnz2 : ∀ e ∈ allEvents list2, e.Start ≠ (0 : Int) ∧ e.End ≠ (0 : Int) :=
    fun e he => hnz e (hperm.mem_iff.mpr he)
  obtain ⟨⟨a, ha, hae⟩, hamin⟩ := NewTimeLine_Start_min list hne (fun e he => (hnz e he).1)
  obtain ⟨⟨b, hb, hbe⟩, hbmin⟩ := NewTimeLine_Start_min list2 hne2 (fun e he => (hnz2 e he).1)
  obtain ⟨⟨c, hc, hce⟩, hcmax⟩ := NewTimeLine_End_max list hne (fun e he => (hnz e he).2)
  obtain ⟨⟨d, hd, hde⟩, hdmax⟩ := NewTimeLine_End_max list2 hne2 (fun e he => (hnz2 e he).2)
  refine ⟨?_, ?_, ?_⟩
  · apply le_antisymm
    · rw [hae]
      exact hbmin a (hperm.mem_iff.mp ha)
    · rw [hbe]
      exact hamin b (hperm.mem_iff.mpr hb)
  · apply le_antisymm
    · rw [hde]
      exact hcmax d (hperm.mem_iff.mpr hd)
    · rw [hce]
      exact hdmax c (hperm.mem_iff.mp hc)
  · rw [NewTimeLine_EventsNb, NewTimeLine_EventsNb, hperm.length_eq]

theorem allEvents_perm_of_forall₂ (list mid : List EventsList)
    (h : List.Forall₂ (fun a b => a.Events.Perm b.Events) list mid) :
    (allEvents list).Perm (allEvents mid) := by
  induction h with
  | nil => exact List.Perm.refl _
  | cons hab _ ih =>
    rw [allEvents_cons, allEvents_cons]
    exact List.Perm.append hab ih

theorem allEvents_perm_of_perm (mid list2 : List EventsList) (h : mid.Perm list2) :
    (allEvents mid).Perm (allEvents list2) := by
  unfold allEvents
  exact List.Perm.flatten (List.Perm.map _ h)

theorem allEvents_perm_of_reordering (list list2 : List EventsList)
    (h : Reordering list list2) : (allEvents list).Perm (allEvents list2) := by
  obtain ⟨mid, h1, h2⟩ := h
  exact (allEvents_perm_of_forall₂ list mid h1).trans (allEvents_perm_of_perm mid list2 h2)

theorem allEvents_eq_nil (list : List EventsList) (h : ∀ l ∈ list, l.Events = []) :
    allEvents list = [] := by
  induction list with
  | nil => rfl
  | cons l ls ih =>
    rw [allEvents_cons, h l (List.mem_cons_self _ _),
      ih (fun x hx => h x (List.mem_cons_of_mem _ hx))]
    rfl

theorem foldl_visit_last (es : List Event) (e : Event) (s : Bounds) :
    ((es ++ [e]).foldl Bounds.visit s).start ≤ e.Start
      ∧ e.End ≤ ((es ++ [e]).foldl Bounds.visit s).stop := by
  rw [List.foldl_append]
  exact ⟨visit_start_le _ e, visit_le_stop _ e⟩

theorem NewTimeLine_Start_le_End (list : List EventsList) (hne : allEvents list ≠ [])
    (h : ∀ e ∈ allEvents list, e.Start ≤ e.End) :
    (NewTimeLine list).Start ≤ (NewTimeLine list).End := by
  rw [NewTimeLine_eq]
  simp only
  rcases List.eq_nil_or_concat (allEvents list) with h0 | ⟨es, e, hes⟩
  · exact absurd h0 hne
  · rw [List.concat_eq_append] at hes
    have he : e.Start ≤ e.End := h e (by rw [hes]; simp)
    rw [hes]
    obtain ⟨h1, h2⟩ := foldl_visit_last es e ⟨0, 0, 0⟩
    exact le_trans h1 (le_trans he h2)

theorem Sub_nonneg (t u : Int) (h : u ≤ t) : (0 : Int) ≤ Time.Sub t u := by
  unfold Time.Sub
  simp only [maxDuration_eq, minDuration_eq]
  by_cases h1 : t - u > (9223372036854775807 : Int)
  · rw [if_pos h1]
    decide
  · rw [if_neg h1]
    by_cases h2 : t - u < (-9223372036854775808 : Int)
    · omega
    · rw [if_neg h2]
      omega

theorem Seconds_nonneg (d : Int) (h : 0 ≤ d) : 0 ≤ Duration.Seconds d := by
  rw [Seconds_eq]
  have hq : (0 : ℚ) ≤ (d : ℚ) := by exact_mod_cast h
  positivity

/-! ### `Draw`: geometry -/

theorem toInt_of_nonneg (q : ℚ) (h : 0 ≤ q) : toInt q = ⌊q⌋ := by
  unfold toInt
  rw [Rat.floor_def]
  exact Int.tdiv_eq_ediv (Rat.num_nonneg.mpr h) (Int.ofNat_nonneg _)

theorem toInt_neg (q : ℚ) : toInt (-q) = -toInt q := by
  unfold toInt
  simp

theorem toInt_of_nonpos (q : ℚ) (h : q ≤ 0) : toInt q = ⌈q⌉ := by
  have h1 : toInt q = -toInt (-q) := by
    rw [toInt_neg]
    simp
  rw [h1, toInt_of_nonneg (-q) (by linarith), Int.floor_neg]
  simp

theorem toInt_le_of_nonneg (q : ℚ) (h : 0 ≤ q) : (toInt q : ℚ) ≤ q ∧ q < (toInt q : ℚ) + 1 := by
  rw [toInt_of_nonneg q h]
  exact ⟨Int.floor_le q, Int.lt_floor_add_one q⟩

theorem le_toInt_of_nonpos (q : ℚ) (h : q ≤ 0) : q ≤ (toInt q : ℚ) ∧ (toInt q : ℚ) - 1 < q := by
  rw [toInt_of_nonpos q h]
  constructor
  · exact Int.le_ceil q
  · have := Int.ceil_lt_add_one q
    linarith

theorem Sub_self (t : Int) : Time.Sub t t = (0 : Int) := (Sub_eq_zero_iff t t).mpr rfl

theorem Seconds_zero : Duration.Seconds 0 = 0 := by
  rw [Seconds_eq]
  simp

theorem Seconds_pos (d : Int) (h : 0 < d) : 0 < Duration.Seconds d := by
  rw [Seconds_eq]
  have hq : (0 : ℚ) < (d : ℚ) := by exact_mod_cast h
  positivity

theorem Seconds_neg (d : Int) (h : d < 0) : Duration.Seconds d < 0 := by
  rw [Seconds_eq]
  have hq : (d : ℚ) < 0 := by exact_mod_cast h
  exact div_neg_of_neg_of_pos hq (by norm_num)

theorem Seconds_le_Seconds (a b : Int) (h : a ≤ b) : Duration.Seconds a ≤ Duration.Seconds b := by
  rw [Seconds_eq, Seconds_eq]
  have hq : (a : ℚ) ≤ (b : ℚ) := by exact_mod_cast h
  exact div_le_div_of_nonneg_right hq (by norm_num)

theorem Sub_neg (t u : Int) (h : t < u) : Time.Sub t u < (0 : Int) := by
  unfold Time.Sub
  simp only [maxDuration_eq, minDuration_eq]
  by_cases h1 : t - u > (9223372036854775807 : Int)
  · omega
  · rw [if_neg h1]
    by_cases h2 : t - u < (-9223372036854775808 : Int)
    · rw [if_pos h2]
      decide
    · rw [if_neg h2]
      have h3 : t - u < (0 : Int) := by omega
      exact h3

theorem Sub_mono (t u t2 u2 : Int) (h : t - u ≤ t2 - u2) : Time.Sub t u ≤ Time.Sub t2 u2 := by
  unfold Time.Sub
  simp only [maxDuration_eq, minDuration_eq]
  by_cases h1 : t - u > (9223372036854775807 : Int)
  · have h3 : t2 - u2 > (9223372036854775807 : Int) := by omega
    rw [if_pos h1, if_pos h3]
  · rw [if_neg h1]
    by_cases h3 : t2 - u2 > (9223372036854775807 : Int)
    · rw [if_pos h3]
      by_cases h2 : t - u < (-9223372036854775808 : Int)
      · rw [if_pos h2]
        decide
      · rw [if_neg h2]
        have h5 : t - u ≤ (9223372036854775807 : Int) := by omega
        exact h5
    · rw [if_neg h3]
      by_cases h2 : t - u < (-9223372036854775808 : Int)
      · rw [if_pos h2]
        by_cases h4 : t2 - u2 < (-9223372036854775808 : Int)
        · rw [if_pos h4]
        · rw [if_neg h4]
          have h5 : (-9223372036854775808 : Int) ≤ t2 - u2 := by omega
          exact h5
      · rw [if_neg h2]
        have h4 : ¬ t2 - u2 < (-9223372036854775808 : Int) := by omega
        rw [if_neg h4]
        exact h

theorem getElem?_eventRectangles (timeline : TimeLine) (width : ℚ) (k : Nat) (e : Event)
    (hne : timeline.Start ≠ timeline.End)
    (hk : (allEvents timeline.List)[k]? = some e) :
    (eventRectangles (Draw timeline width))[k]?
      = some (rowRect timeline 10
          (width / Duration.Seconds (Time.Sub timeline.End timeline.Start)) k e) := by
  rw [eventRectangles_Draw timeline width hne, List.getElem?_map, List.getElem?_enum, hk]
  rfl

theorem getElem?_eventRectangles_inv (timeline : TimeLine) (width : ℚ) (k : Nat) (r : Rect)
    (hne : timeline.Start ≠ timeline.End)
    (hk : (eventRectangles (Draw timeline width))[k]? = some r) :
    ∃ e, (allEvents timeline.List)[k]? = some e
      ∧ r = rowRect timeline 10
          (width / Duration.Seconds (Time.Sub timeline.End timeline.Start)) k e := by
  rw [eventRectangles_Draw timeline width hne, List.getElem?_map, List.getElem?_enum] at hk
  cases he : (allEvents timeline.List)[k]? with
  | none => simp [he] at hk
  | some e =>
    rw [he] at hk
    simp only [Option.map_some', Option.some.injEq] at hk
    exact ⟨e, rfl, hk.symm⟩

theorem NewTimeLine_single (list : List EventsList) (e : Event) (h : allEvents list = [e]) :
    NewTimeLine list = { List := list, Start := e.Start, End := e.End, EventsNb := 1 } := by
  rw [NewTimeLine_eq, h]
  simp [Bounds.visit, Time.IsZero]

theorem NewTimeLine_List (list : List EventsList) : (NewTimeLine list).List = list := rfl

theorem Start_ne_End_of_Draw (timeline : TimeLine) (width : ℚ)
    (h : Draw timeline width ≠ []) : timeline.Start ≠ timeline.End :=
  fun heq => h (Draw_of_eq timeline width heq)

theorem inside_bounds (s a b t : Int) (h1 : s ≤ a) (h2 : a ≤ b) (h3 : b ≤ t) :
    a - s ≤ t - s ∧ b - a ≤ t - s ∧ 0 ≤ a - s ∧ 0 ≤ b - a
      ∧ (a - s) + (b - a) ≤ t - s := by
  omega

/-! ### `ImportFromXLSX`: the tracks of a successful import -/

theorem importCell_of_ge (parse : String → Except String Time) (idxCell : Nat)
    (value : String) (event : Event) (h : 4 ≤ idxCell) :
    importCell parse idxCell value event = .ok event := by
  unfold importCell
  simp only [START, END, NAME, COLOR]
  rw [if_neg (by omega), if_neg (by omega), if_neg (by omega), if_neg (by omega)]

theorem importCells_of_ge (parse : String → Except String Time) (sheet : String)
    (idxRow : Nat) (cells : List Cell) (idxCell : Nat) (event : Event) (h : 4 ≤ idxCell) :
    importCells parse sheet idxRow idxCell cells event = .ok event := by
  induction cells generalizing idxCell with
  | nil => rfl
  | cons cell cells ih =>
    unfold importCells
    simp only [importCell_of_ge parse idxCell cell.String event h]
    exact ih (idxCell + 1) (by omega)

theorem importCells_rowEvent (parse : String → Except String Time) (sheet : String)
    (idxRow : Nat) (cells : List Cell) (ev : Event)
    (h : importCells parse sheet idxRow 0 cells zeroEvent = .ok ev) :
    ev = rowEvent parse ⟨cells⟩ := by
  rcases cells with _ | ⟨a, _ | ⟨b, _ | ⟨c, _ | ⟨d, rest⟩⟩⟩⟩
  · simp only [importCells, Except.ok.injEq] at h
    rw [← h]
    rfl
  · simp only [importCells, importCell, START, END, NAME, COLOR] at h
    cases ha : parse a.String with
    | error x => simp [ha] at h
    | ok ta =>
      simp only [ha, if_true, Except.ok.injEq] at h
      rw [← h]
      simp [rowEvent, ha, zeroEvent]
  · simp only [importCells, importCell, START, END, NAME, COLOR] at h
    cases ha : parse a.String with
    | error x => simp [ha] at h
    | ok ta =>
      cases hb : parse b.String with
      | error x => simp [ha, hb] at h
      | ok tb =>
        simp [ha, hb] at h
        rw [← h]
        simp [rowEvent, ha, hb, zeroEvent]
  · simp only [importCells, importCell, START, END, NAME, COLOR] at h
    cases ha : parse a.String with
    | error x => simp [ha] at h
    | ok ta =>
      cases hb : parse b.String with
      | error x => simp [ha, hb] at h
      | ok tb =>
        simp [ha, hb] at h
        rw [← h]
        simp [rowEvent, ha, hb, zeroEvent]
  · unfold importCells at h
    cases ha : parse a.String with
    | error x => simp [importCell, START, ha] at h
    | ok ta =>
      simp only [importCell, START, if_true, ha] at h
      unfold importCells at h
      cases hb : parse b.String with
      | error x => simp [importCell, START, END, hb] at h
      | ok tb =>
        simp [importCell, START, END, hb] at h
        unfold importCells at h
        simp [importCell, START, END, NAME] at h
        unfold importCells at h
        by_cases hd : d.String = ""
        · simp [importCell, START, END, NAME, COLOR, hd] at h
          rw [importCells_of_ge parse sheet idxRow rest 4 _ (Nat.le_refl 4)] at h
          simp only [Except.ok.injEq] at h
          rw [← h]
          simp [rowEvent, ha, hb, hd, zeroEvent]
        · cases hl : COLORS.lookup d.String with
          | none => simp [importCell, START, END, NAME, COLOR, hd, hl] at h
          | some col =>
            simp [importCell, START, END, NAME, COLOR, hd, hl] at h
            rw [importCells_of_ge parse sheet idxRow rest 4 _ (Nat.le_refl 4)] at h
            simp only [Except.ok.injEq] at h
            rw [← h]
            simp [rowEvent, ha, hb, hd, hl, zeroEvent]

theorem importRows_map (parse : String → Except String Time) (sheet : String)
    (rows : List Row) (idxRow : Nat) (events events2 : EventsList) (hidx : 1 ≤ idxRow)
    (h : importRows parse sheet idxRow rows events = .ok events2) :
    events2 = { Name := events.Name, Events := events.Events ++ rows.map (rowEvent parse) } := by
  induction rows generalizing idxRow events with
  | nil =>
    unfold importRows at h
    simp only [Except.ok.injEq] at h
    simp [← h]
  | cons row rows ih =>
    unfold importRows at h
    have h0 : idxRow ≠ 0 := by omega
    simp only [if_neg h0] at h
    cases hc : importCells parse sheet idxRow 0 row.Cells
        { Start := 0, End := 0, Name := "", Color := none } with
    | error e => simp [hc] at h
    | ok ev =>
      simp only [hc] at h
      have hev : ev = rowEvent parse row := importCells_rowEvent parse sheet idxRow row.Cells ev hc
      rw [ih (idxRow + 1) (events.AddEvent ev) (by omega) h, hev]
      simp [EventsList.AddEvent]

theorem importRows_zero (parse : String → Except String Time) (sheet : String)
    (rows : List Row) (events : EventsList) :
    importRows parse sheet 0 rows events = importRows parse sheet 1 rows.tail events := by
  cases rows with
  | nil =>
    unfold importRows
    rfl
  | cons row rows =>
    rw [importRows]
    simp

theorem importRows_sheetTrack (parse : String → Except String Time) (sheet : Sheet)
    (track : EventsList)
    (h : importRows parse sheet.Name 0 sheet.Rows { Name := sheet.Name, Events := [] }
      = .ok track) :
    track = sheetTrack parse sheet := by
  rw [importRows_zero] at h
  rw [importRows_map parse sheet.Name sheet.Rows.tail 1 _ track (Nat.le_refl 1) h]
  simp [sheetTrack]

theorem importSheets_map (parse : String → Except String Time) (sheets : List Sheet)
    (list list2 : List EventsList)
    (h : importSheets parse sheets list = .ok list2) :
    list2 = list ++ sheets.map (sheetTrack parse) := by
  induction sheets generalizing list with
  | nil =>
    unfold importSheets at h
    simp only [Except.ok.injEq] at h
    simp [h]
  | cons sheet sheets ih =>
    unfold importSheets at h
    cases hr : importRows parse sheet.Name 0 sheet.Rows { Name := sheet.Name, Events := [] } with
    | error e => simp [hr] at h
    | ok track =>
      simp only [hr] at h
      rw [ih (list ++ [track]) h, importRows_sheetTrack parse sheet track hr]
      simp

theorem importSheets_congr (parse : String → Except String Time) (sheets sheets2 : List Sheet)
    (list : List EventsList)
    (h : sheets.map sheetData = sheets2.map sheetData) :
    importSheets parse sheets list = importSheets parse sheets2 list := by
  induction sheets generalizing sheets2 list with
  | nil =>
    cases sheets2 with
    | nil => rfl
    | cons s ss => simp at h
  | cons sheet sheets ih =>
    cases sheets2 with
    | nil => simp at h
    | cons sheet2 sheets2 =>
      simp only [List.map_cons, List.cons.injEq, sheetData, Prod.mk.injEq] at h
      obtain ⟨⟨hname, hrows⟩, htail⟩ := h
      unfold importSheets
      rw [importRows_zero parse sheet.Name sheet.Rows, importRows_zero parse sheet2.Name sheet2.Rows,
        hname, hrows]
      cases importRows parse sheet2.Name 1 sheet2.Rows.tail
          { Name := sheet2.Name, Events := [] } with
      | error e => rfl
      | ok track => exact ih sheets2 (list ++ [track]) htail

theorem ImportFromXLSX_congr (openFile openFile2 : String → Except String File)
    (parse : String → Except String Time) (path path2 : String) (file file2 : File)
    (hopen : openFile path = .ok file) (hopen2 : openFile2 path2 = .ok file2)
    (h : file.Sheets.map sheetData = file2.Sheets.map sheetData) :
    ImportFromXLSX openFile parse path = ImportFromXLSX openFile2 parse path2 := by
  unfold ImportFromXLSX
  simp only [hopen, hopen2]
  rw [importSheets_congr parse file.Sheets file2.Sheets [] h]

theorem ImportFromXLSX_map (openFile : String → Except String File)
    (parse : String → Except String Time) (path : String) (file : File)
    (list : List EventsList)
    (hopen : openFile path = .ok file)
    (h : (ImportFromXLSX openFile parse path).1 = some list) :
    ImportFromXLSX openFile parse path = (some list, none)
      ∧ list = file.Sheets.map (sheetTrack parse) := by
  unfold ImportFromXLSX at h ⊢
  simp only [hopen] at h ⊢
  cases hs : importSheets parse file.Sheets [] with
  | error e => simp [hs] at h
  | ok list2 =>
    simp only [hs, Option.some.injEq] at h
    subst h
    have hm := importSheets_map parse file.Sheets [] list2 hs
    simp only [List.nil_append] at hm
    exact ⟨rfl, hm⟩

/-! ### The arithmetic of `float64` -/

theorem roundHalfEven_eq (x : ℚ) (m : Int) (h1 : (m : ℚ) - 1 / 2 < x)
    (h2 : x < (m : ℚ) + 1 / 2) : roundHalfEven x = m := by
  unfold roundHalfEven
  by_cases hx : (m : ℚ) ≤ x
  · have hf : ⌊x⌋ = m := by
      rw [Int.floor_eq_iff]
      exact ⟨hx, by linarith⟩
    simp only [hf]
    rw [if_pos (by linarith)]
  · have hf : ⌊x⌋ = m - 1 := by
      rw [Int.floor_eq_iff]
      push_cast
      exact ⟨by linarith, by linarith⟩
    simp only [hf]
    push_cast
    rw [if_neg (by linarith), if_pos (by linarith)]
    ring

theorem floor_le_roundHalfEven (x : ℚ) : ⌊x⌋ ≤ roundHalfEven x := by
  unfold roundHalfEven
  simp only
  split_ifs <;> omega

theorem two_zpow_pos (e : Int) : (0 : ℚ) < 2 ^ e := zpow_pos (by norm_num) e

theorem log_eq_of_bounds (q : ℚ) (k : Int) (hlo : (2 : ℚ) ^ k ≤ |q|)
    (hhi : |q| < (2 : ℚ) ^ (k + 1)) : Int.log 2 |q| = k := by
  have hpos : 0 < |q| := lt_of_lt_of_le (two_zpow_pos k) hlo
  have h1 : k ≤ Int.log 2 |q| := by
    rw [← Int.zpow_le_iff_le_log (by norm_num) hpos]
    simpa using hlo
  have h2 : Int.log 2 |q| < k + 1 := by
    rw [← Int.lt_zpow_iff_log_lt (by norm_num) hpos]
    simpa using hhi
  omega

theorem ulpExponent_eq (q : ℚ) (e : Int) (he : -1074 ≤ e)
    (hlo : (2 : ℚ) ^ (e + 52) ≤ |q|) (hhi : |q| < (2 : ℚ) ^ (e + 52 + 1)) :
    ulpExponent q = e := by
  unfold ulpExponent
  rw [log_eq_of_bounds q (e + 52) hlo hhi]
  omega

theorem round64_eq (q : ℚ) (e m : Int) (he : -1074 ≤ e)
    (hlo : (2 : ℚ) ^ (e + 52) ≤ |q|) (hhi : |q| < (2 : ℚ) ^ (e + 52 + 1))
    (h1 : (m : ℚ) - 1 / 2 < q / 2 ^ e) (h2 : q / 2 ^ e < (m : ℚ) + 1 / 2) :
    round64 q = (m : ℚ) * 2 ^ e := by
  have hq : q ≠ 0 := by
    intro h0
    rw [h0, abs_zero] at hlo
    exact absurd hlo (not_le.mpr (two_zpow_pos _))
  unfold round64
  rw [if_neg hq, ulpExponent_eq q e he hlo hhi, roundHalfEven_eq _ m h1 h2]

theorem round64_zero : round64 0 = 0 := by
  unfold round64
  simp

theorem round64_nonneg (q : ℚ) (h : 0 ≤ q) : 0 ≤ round64 q := by
  unfold round64
  split_ifs with h0
  · exact le_refl _
  · have hx : 0 ≤ q / 2 ^ ulpExponent q := div_nonneg h (le_of_lt (two_zpow_pos _))
    have hf : (0 : Int) ≤ roundHalfEven (q / 2 ^ ulpExponent q) :=
      le_trans (Int.floor_nonneg.mpr hx) (floor_le_roundHalfEven _)
    have hfq : (0 : ℚ) ≤ (roundHalfEven (q / 2 ^ ulpExponent q) : ℚ) := by exact_mod_cast hf
    exact mul_nonneg hfq (le_of_lt (two_zpow_pos _))

theorem round64_ge (q : ℚ) (k : Int) (hk : -1022 ≤ k) (h : (2 : ℚ) ^ k ≤ q) :
    (2 : ℚ) ^ k ≤ round64 q := by
  have hpos : 0 < q := lt_of_lt_of_le (two_zpow_pos k) h
  have habs : |q| = q := abs_of_pos hpos
  have hL : k ≤ Int.log 2 |q| := by
    rw [← Int.zpow_le_iff_le_log (by norm_num) (by rw [habs]; exact hpos)]
    simpa [habs] using h
  have hself : (2 : ℚ) ^ Int.log 2 |q| ≤ q := by
    have := Int.zpow_log_le_self (b := 2) (r := |q|) (by norm_num) (by rw [habs]; exact hpos)
    simpa [habs] using this
  have he : ulpExponent q = Int.log 2 |q| - 52 := by
    unfold ulpExponent
    omega
  unfold round64
  rw [if_neg (ne_of_gt hpos), he]
  have hx : (2 : ℚ) ^ (52 : Int) ≤ q / 2 ^ (Int.log 2 |q| - 52) := by
    rw [le_div_iff₀ (two_zpow_pos _), ← zpow_add₀ (by norm_num)]
    simpa using hself
  have hfl : ((2 : Int) ^ (52 : Nat)) ≤ ⌊q / 2 ^ (Int.log 2 |q| - 52)⌋ := by
    rw [Int.le_floor]
    have hc : (((2 : Int) ^ (52 : Nat) : Int) : ℚ) = (2 : ℚ) ^ (52 : Int) := by norm_num
    rw [hc]
    exact hx
  have hr : ((2 : Int) ^ (52 : Nat)) ≤ roundHalfEven (q / 2 ^ (Int.log 2 |q| - 52)) :=
    le_trans hfl (floor_le_roundHalfEven _)
  have hrq : (2 : ℚ) ^ (52 : Int)
      ≤ (roundHalfEven (q / 2 ^ (Int.log 2 |q| - 52)) : ℚ) := by
    have hc : (((2 : Int) ^ (52 : Nat) : Int) : ℚ) = (2 : ℚ) ^ (52 : Int) := by norm_num
    rw [← hc]
    exact_mod_cast hr
  calc (2 : ℚ) ^ k ≤ (2 : ℚ) ^ Int.log 2 |q| := zpow_le_zpow_right₀ (by norm_num) hL
    _ = (2 : ℚ) ^ (52 : Int) * 2 ^ (Int.log 2 |q| - 52) := by
        rw [← zpow_add₀ (by norm_num)]
        congr 1
        ring
    _ ≤ _ := mul_le_mul_of_nonneg_right hrq (le_of_lt (two_zpow_pos _))

theorem round64_one : round64 1 = 1 := by
  have h := round64_eq 1 (-52) 4503599627370496 (by norm_num) (by norm_num) (by norm_num)
    (by norm_num) (by norm_num)
  rw [h]
  norm_num

theorem round64_ten : round64 10 = 10 := by
  have h := round64_eq 10 (-49) 5629499534213120 (by norm_num) (by norm_num [abs_of_pos])
    (by norm_num [abs_of_pos]) (by norm_num) (by norm_num)
  rw [h]
  norm_num

theorem Seconds64_zero : Duration.Seconds64 0 = 0 := by
  unfold Duration.Seconds64
  simp [round64_zero]

theorem Seconds64_pos (d : Int) (h : 0 < d) : 0 < Duration.Seconds64 d := by
  unfold Duration.Seconds64
  simp only [Second]
  have hsec : (0 : Int) ≤ Int.tdiv d 1000000000 := Int.tdiv_nonneg (le_of_lt h) (by decide)
  have hnsec : (0 : Int) ≤ Int.tmod d 1000000000 := Int.tmod_nonneg _ (le_of_lt h)
  have hsum := Int.tdiv_add_tmod d 1000000000
  have hsecq : (0 : ℚ) ≤ ((Int.tdiv d 1000000000 : Int) : ℚ) := by exact_mod_cast hsec
  have hnsecq : (0 : ℚ) ≤ ((Int.tmod d 1000000000 : Int) : ℚ) := by exact_mod_cast hnsec
  have hfrac : 0 ≤ round64 (round64 ((Int.tmod d 1000000000 : Int) : ℚ) / 1000000000) :=
    round64_nonneg _ (div_nonneg (round64_nonneg _ hnsecq) (by norm_num))
  by_cases h1 : 1 ≤ Int.tdiv d 1000000000
  · have h1q : (2 : ℚ) ^ (0 : Int) ≤ ((Int.tdiv d 1000000000 : Int) : ℚ) := by
      rw [zpow_zero]
      exact_mod_cast h1
    have hr := round64_ge _ 0 (by decide) h1q
    have hs : (2 : ℚ) ^ (0 : Int) ≤ round64 ((Int.tdiv d 1000000000 : Int) : ℚ)
        + round64 (round64 ((Int.tmod d 1000000000 : Int) : ℚ) / 1000000000) := by linarith
    exact lt_of_lt_of_le (two_zpow_pos 0) (round64_ge _ 0 (by decide) hs)
  · have hsec0 : Int.tdiv d 1000000000 = 0 := by omega
    have hn1 : 1 ≤ Int.tmod d 1000000000 := by
      rw [hsec0] at hsum
      omega
    have hn1q : (2 : ℚ) ^ (0 : Int) ≤ ((Int.tmod d 1000000000 : Int) : ℚ) := by
      rw [zpow_zero]
      exact_mod_cast hn1
    have hr := round64_ge _ 0 (by decide) hn1q
    rw [zpow_zero] at hr
    have hdiv : (2 : ℚ) ^ (-30 : Int)
        ≤ round64 ((Int.tmod d 1000000000 : Int) : ℚ) / 1000000000 := by
      rw [le_div_iff₀ (by norm_num)]
      have h30 : (2 : ℚ) ^ (-30 : Int) * 1000000000 ≤ 1 := by norm_num
      linarith
    have hr2 := round64_ge _ (-30) (by decide) hdiv
    rw [hsec0]
    simp only [Int.cast_zero, round64_zero, zero_add]
    exact lt_of_lt_of_le (two_zpow_pos (-30)) (round64_ge _ (-30) (by decide) hr2)

theorem Sub_pos (t u : Int) (h : u < t) : (0 : Int) < Time.Sub t u := by
  have h0 := Sub_nonneg t u (le_of_lt h)
  have h1 : Time.Sub t u ≠ (0 : Int) := by
    rw [Ne, Sub_eq_zero_iff]
    exact fun heq => (ne_of_lt h) heq.symm
  exact lt_of_le_of_ne h0 (Ne.symm h1)

theorem rowY64_add (h y : ℚ) (m n : Nat) :
    rowY64 h y (m + n) = rowY64 h (rowY64 h y m) n := by
  induction m generalizing y with
  | zero => simp [rowY64]
  | succ m ih =>
    have hs : m + 1 + n = (m + n) + 1 := by omega
    rw [hs]
    simp only [rowY64]
    exact ih _

theorem foldl_drawEvent64 (timeline : TimeLine) (h f : ℚ) (events : List Event)
    (s : DrawState) :
    events.foldl (DrawState.drawEvent64 timeline h f) s
      = { dc := s.dc ++ rowOps64 timeline h f s.y events,
          y := rowY64 h s.y events.length } := by
  induction events generalizing s with
  | nil => simp [rowOps64, rowY64]
  | cons e es ih =>
    rw [List.foldl_cons, ih]
    simp only [DrawState.drawEvent64, rowOps64, rowY64, List.append_assoc, List.length_cons]

theorem rowOps64_append (timeline : TimeLine) (h f : ℚ) (a b : List Event) (y : ℚ) :
    rowOps64 timeline h f y (a ++ b)
      = rowOps64 timeline h f y a ++ rowOps64 timeline h f (rowY64 h y a.length) b := by
  induction a generalizing y with
  | nil => simp [rowOps64, rowY64]
  | cons e es ih =>
    have hcons : (e :: es) ++ b = e :: (es ++ b) := rfl
    rw [hcons]
    simp only [rowOps64, rowY64, List.length_cons]
    rw [ih, List.append_assoc]

theorem foldl_drawEvents64 (timeline : TimeLine) (h f : ℚ) (list : List EventsList)
    (s : DrawState) :
    list.foldl (DrawState.drawEvents64 timeline h f) s
      = { dc := s.dc ++ rowOps64 timeline h f s.y (allEvents list),
          y := rowY64 h s.y (allEvents list).length } := by
  induction list generalizing s with
  | nil => simp [rowOps64, rowY64, allEvents]
  | cons l ls ih =>
    rw [List.foldl_cons, ih, DrawState.drawEvents64, foldl_drawEvent64, allEvents_cons]
    simp only [rowOps64_append, List.append_assoc, List.length_append, rowY64_add]

theorem Draw64_single (list : List EventsList) (e : Event) (width : ℚ)
    (hone : allEvents list = [e]) (hlt : e.Start < e.End) :
    Draw64 (NewTimeLine list) width
      = [Op.NewContext (toInt width) 1000, Op.DrawRectangle 0 0 width 1000,
          Op.SetRGB255 255 255 255, Op.Fill,
          Op.DrawRectangle 0 0
            (round64 (Duration.Seconds64 (Time.Sub e.End e.Start)
              * round64 (width / Duration.Seconds64 (Time.Sub e.End e.Start)))) 10]
        ++ (match e.Color with
            | some c => [Op.SetColor c, Op.Fill]
            | none => [])
        ++ [Op.SavePNG "out.png"] := by
  have hS : ¬ Duration.Seconds64 (Time.Sub e.End e.Start) = 0 :=
    ne_of_gt (Seconds64_pos _ (Sub_pos _ _ hlt))
  rw [NewTimeLine_single list e hone]
  unfold Draw64
  simp only [if_neg hS, foldl_drawEvents64, hone, Int.cast_one, round64_one, mul_one,
    round64_ten, rowOps64, Event.Draw64, Sub_self, Seconds64_zero, zero_mul, round64_zero]
  have h100 : (10 : ℚ) < 100 := by norm_num
  simp only [if_pos h100, toInt_thousand]
  cases e.Color <;> simp

theorem toInt_fits (f : ℚ) (h : fitsInt f) :
    -(2 : Int) ^ 63 ≤ toInt f ∧ toInt f < (2 : Int) ^ 63 := by
  obtain ⟨hlo, hhi⟩ := h
  by_cases h0 : 0 ≤ f
  · obtain ⟨h1, _⟩ := toInt_le_of_nonneg f h0
    have hn : (0 : Int) ≤ toInt f := by
      rw [toInt_of_nonneg f h0]
      exact Int.floor_nonneg.mpr h0
    constructor
    · exact le_trans (by norm_num) hn
    · have hq : (toInt f : ℚ) < (((2 : Int) ^ 63 : Int) : ℚ) := by
        push_cast
        linarith
      exact_mod_cast hq
  · have h0' : f ≤ 0 := le_of_lt (not_le.mp h0)
    obtain ⟨h1, _⟩ := le_toInt_of_nonpos f h0'
    have hn : toInt f ≤ (0 : Int) := by
      rw [toInt_of_nonpos f h0']
      exact Int.ceil_le.mpr (by simpa using h0')
    constructor
    · have hq : (((-(2 : Int) ^ 63 - 1 : Int)) : ℚ) < (toInt f : ℚ) := by
        push_cast
        linarith
      have hz : -(2 : Int) ^ 63 - 1 < toInt f := by exact_mod_cast hq
      omega
    · exact lt_of_le_of_lt hn (by norm_num)

theorem round64_fifteen : round64 15 = 15 := by
  have h := round64_eq 15 (-49) 8444249301319680 (by norm_num) (by norm_num [abs_of_pos])
    (by norm_num [abs_of_pos]) (by norm_num) (by norm_num)
  rw [h]
  norm_num

theorem round64_hour : round64 3600 = 3600 := by
  have h := round64_eq 3600 (-41) 7916483719987200 (by norm_num) (by norm_num [abs_of_pos])
    (by norm_num [abs_of_pos]) (by norm_num) (by norm_num)
  rw [h]
  norm_num

theorem Seconds64_fifteen : Duration.Seconds64 15000000000 = 15 := by
  have hsec : Int.tdiv (15000000000 : Int) 1000000000 = 15 := by decide
  have hnsec : Int.tmod (15000000000 : Int) 1000000000 = 0 := by decide
  unfold Duration.Seconds64
  simp only [Second, hsec, hnsec]
  norm_num [round64_zero, round64_fifteen]

theorem Seconds64_hour : Duration.Seconds64 3600000000000 = 3600 := by
  have hsec : Int.tdiv (3600000000000 : Int) 1000000000 = 3600 := by decide
  have hnsec : Int.tmod (3600000000000 : Int) 1000000000 = 0 := by decide
  unfold Duration.Seconds64
  simp only [Second, hsec, hnsec]
  norm_num [round64_zero, round64_hour]

theorem width64_fifteen_seconds :
    round64 (15 * round64 (4000 / 15)) = 8796093022208001 / 2199023255552 := by
  have h1 : round64 (4000 / 15) = 4691249611844267 / 17592186044416 := by
    have h := round64_eq (4000 / 15) (-44) 4691249611844267 (by norm_num)
      (by norm_num [abs_of_pos]) (by norm_num [abs_of_pos]) (by norm_num) (by norm_num)
    rw [h]
    norm_num
  rw [h1]
  have h := round64_eq (15 * (4691249611844267 / 17592186044416)) (-41) 8796093022208001
    (by norm_num) (by norm_num [abs_of_pos]) (by norm_num [abs_of_pos]) (by norm_num)
    (by norm_num)
  rw [h]
  norm_num

theorem width64_one_hour : round64 (3600 * round64 (1000 / 3600)) = 1000 := by
  have h1 : round64 (1000 / 3600) = 2501999792983609 / 9007199254740992 := by
    have h := round64_eq (1000 / 3600) (-54) 5003999585967218 (by norm_num)
      (by norm_num [abs_of_pos]) (by norm_num [abs_of_pos]) (by norm_num) (by norm_num)
    rw [h]
    norm_num
  rw [h1]
  have h := round64_eq (3600 * (2501999792983609 / 9007199254740992)) (-43) 8796093022208000
    (by norm_num) (by norm_num [abs_of_pos]) (by norm_num [abs_of_pos]) (by norm_num)
    (by norm_num)
  rw [h]
  norm_num

theorem roundHalfEven_sub_le (x : ℚ) : |(roundHalfEven x : ℚ) - x| ≤ 1 / 2 := by
  have hfl : (⌊x⌋ : ℚ) ≤ x := Int.floor_le x
  have hfu : x < (⌊x⌋ : ℚ) + 1 := Int.lt_floor_add_one x
  unfold roundHalfEven
  simp only
  rw [abs_le]
  split_ifs with h1 h2 h3
  · constructor <;> linarith
  · push_cast
    constructor <;> linarith
  · have hr : x - (⌊x⌋ : ℚ) = 1 / 2 := le_antisymm (not_lt.mp h2) (not_lt.mp h1)
    constructor <;> linarith
  · have hr : x - (⌊x⌋ : ℚ) = 1 / 2 := le_antisymm (not_lt.mp h2) (not_lt.mp h1)
    push_cast
    constructor <;> linarith

theorem round64_sub_le (q : ℚ) (hq : (2 : ℚ) ^ (-1022 : Int) ≤ |q|) :
    |round64 q - q| ≤ |q| / 2 ^ (53 : Nat) := by
  have hpos : 0 < |q| := lt_of_lt_of_le (two_zpow_pos _) hq
  have hq0 : q ≠ 0 := abs_pos.mp hpos
  have hL : (-1022 : Int) ≤ Int.log 2 |q| := by
    rw [← Int.zpow_le_iff_le_log (by norm_num) hpos]
    simpa using hq
  have hself : (2 : ℚ) ^ Int.log 2 |q| ≤ |q| := by
    have := Int.zpow_log_le_self (b := 2) (r := |q|) (by norm_num) hpos
    simpa using this
  have he : ulpExponent q = Int.log 2 |q| - 52 := by
    unfold ulpExponent
    omega
  unfold round64
  rw [if_neg hq0, he]
  have hp := two_zpow_pos (Int.log 2 |q| - 52)
  have hfact : (roundHalfEven (q / 2 ^ (Int.log 2 |q| - 52)) : ℚ) * 2 ^ (Int.log 2 |q| - 52) - q
      = ((roundHalfEven (q / 2 ^ (Int.log 2 |q| - 52)) : ℚ) - q / 2 ^ (Int.log 2 |q| - 52))
        * 2 ^ (Int.log 2 |q| - 52) := by
    field_simp
  rw [hfact, abs_mul, abs_of_pos hp]
  have h1 := roundHalfEven_sub_le (q / 2 ^ (Int.log 2 |q| - 52))
  have h2 : (2 : ℚ) ^ (Int.log 2 |q| - 52) = (2 : ℚ) ^ Int.log 2 |q| / 2 ^ (52 : Nat) := by
    rw [zpow_sub₀ (by norm_num)]
    norm_num
  calc _ ≤ 1 / 2 * (2 : ℚ) ^ (Int.log 2 |q| - 52) :=
        mul_le_mul_of_nonneg_right h1 (le_of_lt hp)
    _ = (2 : ℚ) ^ Int.log 2 |q| / 2 ^ (53 : Nat) := by
        rw [h2]
        ring
    _ ≤ |q| / 2 ^ (53 : Nat) := div_le_div_of_nonneg_right hself (by positivity)

theorem roundHalfEven_le (x : ℚ) (n : Int) (h : x ≤ (n : ℚ)) : roundHalfEven x ≤ n := by
  have hfl : (⌊x⌋ : ℚ) ≤ x := Int.floor_le x
  rcases lt_or_eq_of_le h with hlt | heq
  · have hf : ⌊x⌋ < n := Int.floor_lt.mpr hlt
    unfold roundHalfEven
    simp only
    split_ifs <;> omega
  · have hf : ⌊x⌋ = n := by
      rw [heq]
      exact Int.floor_intCast n
    unfold roundHalfEven
    simp only [hf, heq]
    simp

theorem round64_le (q : ℚ) (k : Int) (hk : -1022 ≤ k) (h0 : 0 < q) (h : q ≤ (2 : ℚ) ^ k) :
    round64 q ≤ (2 : ℚ) ^ k := by
  have habs : |q| = q := abs_of_pos h0
  have hL : Int.log 2 |q| ≤ k := by
    have h1 : Int.log 2 |q| < k + 1 := by
      rw [← Int.lt_zpow_iff_log_lt (by norm_num) (by rw [habs]; exact h0), habs]
      have : (2 : ℚ) ^ k < (2 : ℚ) ^ (k + 1) := zpow_lt_zpow_right₀ (by norm_num) (by omega)
      simpa using lt_of_le_of_lt h this
    omega
  have he : ulpExponent q ≤ k := by
    unfold ulpExponent
    omega
  obtain ⟨n, hn⟩ := Int.eq_ofNat_of_zero_le (show (0 : Int) ≤ k - ulpExponent q by omega)
  have hp := two_zpow_pos (ulpExponent q)
  have hx : q / 2 ^ ulpExponent q ≤ (((2 : Int) ^ n : Int) : ℚ) := by
    rw [div_le_iff₀ hp]
    have hc : (((2 : Int) ^ n : Int) : ℚ) = (2 : ℚ) ^ (k - ulpExponent q) := by
      rw [hn]
      norm_num
    rw [hc, ← zpow_add₀ (by norm_num)]
    simpa using h
  have hr := roundHalfEven_le _ _ hx
  have hrq : (roundHalfEven (q / 2 ^ ulpExponent q) : ℚ) ≤ (2 : ℚ) ^ (k - ulpExponent q) := by
    have hc : (((2 : Int) ^ n : Int) : ℚ) = (2 : ℚ) ^ (k - ulpExponent q) := by
      rw [hn]
      norm_num
    rw [← hc]
    exact_mod_cast hr
  unfold round64
  rw [if_neg (ne_of_gt h0)]
  calc _ ≤ (2 : ℚ) ^ (k - ulpExponent q) * 2 ^ ulpExponent q :=
        mul_le_mul_of_nonneg_right hrq (le_of_lt hp)
    _ = (2 : ℚ) ^ k := by
        rw [← zpow_add₀ (by norm_num)]
        congr 1
        ring

theorem round64_le_of_nonneg (q : ℚ) (k : Int) (hk : -1022 ≤ k) (h0 : 0 ≤ q)
    (h : q ≤ (2 : ℚ) ^ k) : round64 q ≤ (2 : ℚ) ^ k := by
  rcases lt_or_eq_of_le h0 with hpos | hzero
  · exact round64_le q k hk hpos h
  · rw [← hzero, round64_zero]
    exact le_of_lt (two_zpow_pos k)

theorem Seconds64_le (d : Int) (h0 : 0 ≤ d) (h : d ≤ (9223372036854775807 : Int)) :
    Duration.Seconds64 d ≤ (2 : ℚ) ^ (64 : Int) := by
  unfold Duration.Seconds64
  simp only [Second]
  have hsec : (0 : Int) ≤ Int.tdiv d 1000000000 := Int.tdiv_nonneg h0 (by decide)
  have hnsec : (0 : Int) ≤ Int.tmod d 1000000000 := Int.tmod_nonneg _ h0
  have hsum := Int.tdiv_add_tmod d 1000000000
  have hnlt : Int.tmod d 1000000000 < 1000000000 := Int.tmod_lt_of_pos _ (by decide)
  have hsecle : Int.tdiv d 1000000000 ≤ (9223372036854775807 : Int) := by omega
  have hsecq : (0 : ℚ) ≤ ((Int.tdiv d 1000000000 : Int) : ℚ) := by exact_mod_cast hsec
  have hnsecq : (0 : ℚ) ≤ ((Int.tmod d 1000000000 : Int) : ℚ) := by exact_mod_cast hnsec
  have hsecq2 : ((Int.tdiv d 1000000000 : Int) : ℚ) ≤ (2 : ℚ) ^ (63 : Int) := by
    have hc : ((Int.tdiv d 1000000000 : Int) : ℚ) ≤ ((9223372036854775807 : Int) : ℚ) := by
      exact_mod_cast hsecle
    have hn : (((9223372036854775807 : Int) : ℚ)) ≤ (2 : ℚ) ^ (63 : Int) := by norm_num
    exact le_trans hc hn
  have hnsecq2 : ((Int.tmod d 1000000000 : Int) : ℚ) ≤ (2 : ℚ) ^ (30 : Int) := by
    have hc : ((Int.tmod d 1000000000 : Int) : ℚ) ≤ ((1000000000 : Int) : ℚ) := by
      exact_mod_cast le_of_lt hnlt
    have hn : (((1000000000 : Int) : ℚ)) ≤ (2 : ℚ) ^ (30 : Int) := by norm_num
    exact le_trans hc hn
  have ha := round64_le_of_nonneg _ 63 (by decide) hsecq hsecq2
  have ha0 := round64_nonneg _ hsecq
  have hb1 := round64_le_of_nonneg _ 30 (by decide) hnsecq hnsecq2
  have hb0 := round64_nonneg _ hnsecq
  have hdiv0 : 0 ≤ round64 ((Int.tmod d 1000000000 : Int) : ℚ) / 1000000000 :=
    div_nonneg hb0 (by norm_num)
  have hdiv : round64 ((Int.tmod d 1000000000 : Int) : ℚ) / 1000000000 ≤ (2 : ℚ) ^ (1 : Int) := by
    rw [div_le_iff₀ (by norm_num)]
    have h30 : (2 : ℚ) ^ (30 : Int) ≤ (2 : ℚ) ^ (1 : Int) * 1000000000 := by norm_num
    linarith
  have hb := round64_le_of_nonneg _ 1 (by decide) hdiv0 hdiv
  have hb00 := round64_nonneg _ hdiv0
  apply round64_le_of_nonneg _ 64 (by decide) (by linarith)
  have h64 : (2 : ℚ) ^ (63 : Int) + (2 : ℚ) ^ (1 : Int) ≤ (2 : ℚ) ^ (64 : Int) := by norm_num
  linarith

theorem Sub_le_max (t u : Int) : Time.Sub t u ≤ (9223372036854775807 : Int) := by
  unfold Time.Sub
  simp only [maxDuration_eq, minDuration_eq]
  by_cases h1 : t - u > (9223372036854775807 : Int)
  · rw [if_pos h1]
  · rw [if_neg h1]
    by_cases h2 : t - u < (-9223372036854775808 : Int)
    · rw [if_pos h2]
      decide
    · rw [if_neg h2]
      have h3 : t - u ≤ (9223372036854775807 : Int) := by omega
      exact h3

theorem width64_error (S W : ℚ) (hS0 : 0 < S) (hS : S ≤ (2 : ℚ) ^ (64 : Int))
    (hW : 1 ≤ |W|) :
    |round64 (S * round64 (W / S)) - W| ≤ |W| / 2 ^ (51 : Nat) := by
  have hW0 : 0 < |W| := lt_of_lt_of_le one_pos hW
  have hq1 : (2 : ℚ) ^ (-1022 : Int) ≤ |W / S| := by
    rw [abs_div, abs_of_pos hS0, le_div_iff₀ hS0]
    have h1 : (2 : ℚ) ^ (-1022 : Int) * S ≤ (2 : ℚ) ^ (-1022 : Int) * (2 : ℚ) ^ (64 : Int) :=
      mul_le_mul_of_nonneg_left hS (le_of_lt (two_zpow_pos _))
    have h2 : (2 : ℚ) ^ (-1022 : Int) * (2 : ℚ) ^ (64 : Int) ≤ 1 := by
      rw [← zpow_add₀ (by norm_num)]
      exact zpow_le_one_of_nonpos₀ (by norm_num) (by decide)
    linarith
  have he1 := round64_sub_le (W / S) hq1
  have hp : |S * round64 (W / S) - W| ≤ |W| / 2 ^ (53 : Nat) := by
    have hfact : S * round64 (W / S) - W = S * (round64 (W / S) - W / S) := by
      field_simp
      ring
    rw [hfact, abs_mul, abs_of_pos hS0]
    calc S * |round64 (W / S) - W / S| ≤ S * (|W / S| / 2 ^ (53 : Nat)) :=
          mul_le_mul_of_nonneg_left he1 (le_of_lt hS0)
      _ = |W| / 2 ^ (53 : Nat) := by
          rw [abs_div, abs_of_pos hS0]
          field_simp
          ring
  have hplo : |W| - |W| / 2 ^ (53 : Nat) ≤ |S * round64 (W / S)| := by
    have h1 : |W| - |S * round64 (W / S)| ≤ |W - S * round64 (W / S)| :=
      abs_sub_abs_le_abs_sub _ _
    rw [abs_sub_comm] at h1
    linarith
  have hphi : |S * round64 (W / S)| ≤ |W| + |W| / 2 ^ (53 : Nat) := by
    have h1 : |S * round64 (W / S)| - |W| ≤ |S * round64 (W / S) - W| :=
      abs_sub_abs_le_abs_sub _ _
    linarith
  have hsmall : |W| / 2 ^ (53 : Nat) ≤ |W| / 2 := by
    apply div_le_div_of_nonneg_left (le_of_lt hW0) (by norm_num) (by norm_num)
  have hq2 : (2 : ℚ) ^ (-1022 : Int) ≤ |S * round64 (W / S)| := by
    have h1 : (2 : ℚ) ^ (-1022 : Int) ≤ 1 / 2 := by
      have h2 : (2 : ℚ) ^ (-1022 : Int) ≤ (2 : ℚ) ^ (-1 : Int) :=
        zpow_le_zpow_right₀ (by norm_num) (by decide)
      have h3 : (2 : ℚ) ^ (-1 : Int) = 1 / 2 := by norm_num
      rw [h3] at h2
      exact h2
    linarith
  have he2 := round64_sub_le (S * round64 (W / S)) hq2
  have htri : |round64 (S * round64 (W / S)) - W|
      ≤ |round64 (S * round64 (W / S)) - S * round64 (W / S)|
        + |S * round64 (W / S) - W| := by
    have := abs_sub_le (round64 (S * round64 (W / S))) (S * round64 (W / S)) W
    exact this
  have hb : |S * round64 (W / S)| / 2 ^ (53 : Nat)
      ≤ (|W| + |W| / 2 ^ (53 : Nat)) / 2 ^ (53 : Nat) :=
    div_le_div_of_nonneg_right hphi (by positivity)
  have hfin : (|W| + |W| / 2 ^ (53 : Nat)) / 2 ^ (53 : Nat) + |W| / 2 ^ (53 : Nat)
      ≤ |W| / 2 ^ (51 : Nat) := by
    have h53 : |W| / 2 ^ (53 : Nat) ≤ |W| := by
      apply div_le_self (le_of_lt hW0)
      norm_num
    have e1 : (|W| + |W| / 2 ^ (53 : Nat)) / 2 ^ (53 : Nat) ≤ (|W| + |W|) / 2 ^ (53 : Nat) :=
      div_le_div_of_nonneg_right (by linarith) (by positivity)
    have e2 : (|W| + |W|) / 2 ^ (53 : Nat) + |W| / 2 ^ (53 : Nat) ≤ |W| / 2 ^ (51 : Nat) := by
      have e3 : |W| / 2 ^ (51 : Nat) = 4 * (|W| / 2 ^ (53 : Nat)) := by
        field_simp
        ring
      have e4 : (|W| + |W|) / 2 ^ (53 : Nat) = 2 * (|W| / 2 ^ (53 : Nat)) := by ring
      have e5 : 0 ≤ |W| / 2 ^ (53 : Nat) := by positivity
      rw [e3, e4]
      linarith
    linarith
  linarith

/-! ## The claims -/

/-- C1 (code at the failing input). On the track `zeroStartTrack`, whose first
event starts at the zero instant 0001-01-01 00:00:00, `NewTimeLine` returns
Start = 0001-01-01 00:00:05, the start of the second event, although an event
starts earlier: Start is not the minimum of the starts. -/
theorem C1_start_not_minimum_at_zero_instant :
    (NewTimeLine [zeroStartTrack]).Start = Date 1 1 1 0 0 5 0
    ∧ (∃ e ∈ allEvents [zeroStartTrack], e.Start < (NewTimeLine [zeroStartTrack]).Start)
    ∧ (NewTimeLine [zeroStartTrack]).End = Date 1 1 1 0 0 20 0 := by
  refine ⟨by decide, ⟨_, List.mem_cons_self _ _, by decide⟩, by decide⟩

/-- C2 (code at the failing input). The tracks `zeroStartTrack` and
`zeroStartTrackSwapped` hold the same two events in different orders, and
`NewTimeLine` returns Start = 0001-01-01 00:00:05 for the first and
Start = 0001-01-01 00:00:00 for the second: Start depends on the order. -/
theorem C2_start_depends_on_event_order :
    zeroStartTrack.Events.Perm zeroStartTrackSwapped.Events
    ∧ (NewTimeLine [zeroStartTrack]).Start = Date 1 1 1 0 0 5 0
    ∧ (NewTimeLine [zeroStartTrackSwapped]).Start = Date 1 1 1 0 0 0 0
    ∧ (NewTimeLine [zeroStartTrack]).Start ≠ (NewTimeLine [zeroStartTrackSwapped]).Start := by
  refine ⟨List.Perm.swap _ _ _, by decide, by decide, by decide⟩

/-- C3. For every list of tracks, the EventsNb of `NewTimeLine` is the sum of
the lengths of the event sequences of the tracks: every event counts, whatever
its start and end, and a track without events counts 0. -/
theorem C3_eventsNb_eq_sum_of_lengths (list : List EventsList) :
    (NewTimeLine list).EventsNb = ((list.map (fun events => events.Events.length)).sum : Nat) := by
  have h := foldl_visitEvents_eventsNb list { start := 0, stop := 0, eventsNb := 0 }
  simpa [NewTimeLine, eventCount] using h

/-- C4 (counterexample). On the timeline of the track `centuries`, which spans
the years 1000 to 2000, with target width 1000, the event of 1900 is drawn at
x = 1000, whereas the time from the start of the timeline to the start of the
event, in seconds, times the target width over the time from the start to the
end of the timeline, in seconds, is below 901. -/
theorem C4_counterexample_timeline_of_a_thousand_years :
    (NewTimeLine [centuries]).Start ≠ (NewTimeLine [centuries]).End
    ∧ (allEvents (NewTimeLine [centuries]).List)[1]? = some modern
    ∧ ((eventRectangles (Draw (NewTimeLine [centuries]) 1000))[1]?).map Rect.x = some 1000
    ∧ elapsedSeconds modern.Start (NewTimeLine [centuries]).Start
        * (1000 / elapsedSeconds (NewTimeLine [centuries]).End (NewTimeLine [centuries]).Start)
      < 901 := by
  have hne : (NewTimeLine [centuries]).Start ≠ (NewTimeLine [centuries]).End := by decide
  have hall : allEvents (NewTimeLine [centuries]).List = [medieval, modern] := by decide
  have hx : Time.Sub modern.Start (NewTimeLine [centuries]).Start = 9223372036854775807 := by
    decide
  have ht : Time.Sub (NewTimeLine [centuries]).End (NewTimeLine [centuries]).Start
      = 9223372036854775807 := by decide
  have he : modern.Start - (NewTimeLine [centuries]).Start = 28401235200000000000 := by decide
  have hd : (NewTimeLine [centuries]).End - (NewTimeLine [centuries]).Start
      = 31556908800000000000 := by decide
  refine ⟨hne, by decide, ?_, ?_⟩
  · rw [eventRectangles_Draw _ _ hne, hall]
    simp only [List.enum, List.enumFrom_cons, List.map_cons, List.getElem?_cons_succ,
      List.getElem?_cons_zero, Option.map_some', rowRect, hx, ht, Seconds_eq]
    norm_num
  · simp only [elapsedSeconds, he, hd]
    norm_num

/-- C4 (amended). On a timeline with non-zero total duration, the rectangle of
the k-th event has x = (event.Start.Sub(timeline.Start)) in seconds times the
factor and width = (event.End.Sub(event.Start)) in seconds times the factor,
the factor being the target width over (timeline.End.Sub(timeline.Start)) in
seconds, the same for every event; `Sub` is the difference clamped to the range
of a Duration, and wherever the differences fit that range, x and width are the
elapsed times in seconds times the target width over the elapsed time of the
timeline. -/
theorem C4_rectangle_x_and_width (timeline : TimeLine) (width : ℚ) (k : Nat) (e : Event)
    (hne : timeline.Start ≠ timeline.End)
    (hk : (allEvents timeline.List)[k]? = some e) :
    ∃ r, (eventRectangles (Draw timeline width))[k]? = some r
      ∧ r.x = Duration.Seconds (Time.Sub e.Start timeline.Start)
          * (width / Duration.Seconds (Time.Sub timeline.End timeline.Start))
      ∧ r.w = Duration.Seconds (Time.Sub e.End e.Start)
          * (width / Duration.Seconds (Time.Sub timeline.End timeline.Start))
      ∧ (fitsDuration (timeline.End - timeline.Start) →
          (fitsDuration (e.Start - timeline.Start) →
            r.x = elapsedSeconds e.Start timeline.Start
              * (width / elapsedSeconds timeline.End timeline.Start))
          ∧ (fitsDuration (e.End - e.Start) →
            r.w = elapsedSeconds e.End e.Start
              * (width / elapsedSeconds timeline.End timeline.Start))) := by
  refine ⟨rowRect timeline 10
    (width / Duration.Seconds (Time.Sub timeline.End timeline.Start)) k e, ?_, rfl, rfl, ?_⟩
  · rw [eventRectangles_Draw timeline width hne, List.getElem?_map, List.getElem?_enum, hk]
    rfl
  · intro htot
    constructor
    · intro hx
      simp only [rowRect]
      rw [Seconds_Sub_of_fits _ _ htot, Seconds_Sub_of_fits _ _ hx]
    · intro hw
      simp only [rowRect]
      rw [Seconds_Sub_of_fits _ _ htot, Seconds_Sub_of_fits _ _ hw]

/-- C4 (witness). Scenario A, target width 1000: the event is event 0 of a
timeline of one hour, and every difference fits a Duration. -/
theorem C4_rectangle_x_and_width_witness :
    (NewTimeLine [scenarioA]).Start ≠ (NewTimeLine [scenarioA]).End
    ∧ (allEvents (NewTimeLine [scenarioA]).List)[0]? = some taskA
    ∧ fitsDuration ((NewTimeLine [scenarioA]).End - (NewTimeLine [scenarioA]).Start)
    ∧ fitsDuration (taskA.Start - (NewTimeLine [scenarioA]).Start)
    ∧ fitsDuration (taskA.End - taskA.Start)
    ∧ ∃ r, (eventRectangles (Draw (NewTimeLine [scenarioA]) 1000))[0]? = some r
      ∧ r.x = elapsedSeconds taskA.Start (NewTimeLine [scenarioA]).Start
          * (1000 / elapsedSeconds (NewTimeLine [scenarioA]).End
              (NewTimeLine [scenarioA]).Start)
      ∧ r.w = elapsedSeconds taskA.End taskA.Start
          * (1000 / elapsedSeconds (NewTimeLine [scenarioA]).End
              (NewTimeLine [scenarioA]).Start) :=
  match C4_rectangle_x_and_width (NewTimeLine [scenarioA]) 1000 0 taskA
      (by decide) (by decide) with
  | ⟨r, hr, _, _, hfit⟩ =>
    ⟨by decide, by decide, by decide, by decide, by decide, r, hr,
      (hfit (by decide)).1 (by decide), (hfit (by decide)).2 (by decide)⟩

/-- C5. When timeline.Start equals timeline.End, `Draw` makes no call at all on
a drawing context: no canvas is created, no rectangle is drawn and no file is
saved. -/
theorem C5_draw_is_a_noop_on_zero_duration (timeline : TimeLine) (width : ℚ)
    (heq : timeline.Start = timeline.End) :
    Draw timeline width = []
    ∧ canvas (Draw timeline width) = none
    ∧ rectangles (Draw timeline width) = []
    ∧ (∀ path, Op.SavePNG path ∉ Draw timeline width) := by
  rw [Draw_of_eq timeline width heq]
  exact ⟨rfl, rfl, rfl, fun path => List.not_mem_nil _⟩

/-- C5 (witness). The timeline of no track at all, target width 4000. -/
theorem C5_draw_is_a_noop_on_zero_duration_witness :
    (NewTimeLine []).Start = (NewTimeLine []).End
    ∧ Draw (NewTimeLine []) 4000 = []
    ∧ canvas (Draw (NewTimeLine []) 4000) = none
    ∧ rectangles (Draw (NewTimeLine []) 4000) = []
    ∧ (∀ path, Op.SavePNG path ∉ Draw (NewTimeLine []) 4000) :=
  ⟨by decide, C5_draw_is_a_noop_on_zero_duration (NewTimeLine []) 4000 (by decide)⟩

/-- C6. Whenever `Draw` creates a canvas, its height is 10 * EventsNb, unless
10 * EventsNb is below 100, that is EventsNb below 10, in which case it is
1000. -/
theorem C6_canvas_height (timeline : TimeLine) (width : ℚ) (w h : Int)
    (hc : canvas (Draw timeline width) = some (w, h)) :
    h = (if 10 * timeline.EventsNb < 100 then 1000 else 10 * timeline.EventsNb)
    ∧ (10 * timeline.EventsNb < 100 ↔ timeline.EventsNb < 10) := by
  refine ⟨?_, by omega⟩
  by_cases heq : timeline.Start = timeline.End
  · rw [Draw_of_eq timeline width heq] at hc
    exact absurd hc (by simp [canvas])
  · rw [canvas_Draw timeline width heq, toInt_canvasHeight] at hc
    have h2 := congrArg Prod.snd (Option.some.inj hc)
    exact h2.symm

/-- C6 (witness). Scenario A, target width 1000: one event, a canvas of height
1000. -/
theorem C6_canvas_height_witness :
    canvas (Draw (NewTimeLine [scenarioA]) 1000) = some (1000, 1000)
    ∧ (1000 : Int) = (if 10 * (NewTimeLine [scenarioA]).EventsNb < 100 then 1000
        else 10 * (NewTimeLine [scenarioA]).EventsNb)
    ∧ (10 * (NewTimeLine [scenarioA]).EventsNb < 100 ↔ (NewTimeLine [scenarioA]).EventsNb < 10) :=
  have hc : canvas (Draw (NewTimeLine [scenarioA]) 1000) = some (1000, 1000) := by
    rw [canvas_Draw _ _ (by decide), toInt_canvasHeight, toInt_thousand]
    rfl
  ⟨hc, C6_canvas_height (NewTimeLine [scenarioA]) 1000 1000 1000 hc⟩

/-- C7. When `Draw` draws (non-zero total duration), the rectangles it draws are
the background followed by exactly one rectangle per event, in the order of the
concatenation of the tracks; the rectangle of the k-th event (from 0) has
y = 10 * k and height 10, across track boundaries. -/
theorem C7_one_row_per_event_in_traversal_order (timeline : TimeLine) (width : ℚ)
    (hne : timeline.Start ≠ timeline.End) :
    rectangles (Draw timeline width)
      = ⟨0, 0, width, canvasHeight timeline⟩ ::
        (allEvents timeline.List).enum.map (fun p =>
          ({ x := Duration.Seconds (Time.Sub p.2.Start timeline.Start)
                * (width / Duration.Seconds (Time.Sub timeline.End timeline.Start)),
             y := 10 * (p.1 : ℚ),
             w := Duration.Seconds (Time.Sub p.2.End p.2.Start)
                * (width / Duration.Seconds (Time.Sub timeline.End timeline.Start)),
             h := 10 } : Rect)) := by
  rw [rectangles_Draw timeline width hne]
  rfl

/-- C7 (witness). Scenario B, target width 1000: two tracks of one event each;
the rows are at y = 0 and y = 10. -/
theorem C7_one_row_per_event_in_traversal_order_witness :
    (NewTimeLine scenarioB).Start ≠ (NewTimeLine scenarioB).End
    ∧ rectangles (Draw (NewTimeLine scenarioB) 1000)
      = ⟨0, 0, 1000, canvasHeight (NewTimeLine scenarioB)⟩ ::
        (allEvents (NewTimeLine scenarioB).List).enum.map (fun p =>
          ({ x := Duration.Seconds (Time.Sub p.2.Start (NewTimeLine scenarioB).Start)
                * (1000 / Duration.Seconds
                    (Time.Sub (NewTimeLine scenarioB).End (NewTimeLine scenarioB).Start)),
             y := 10 * (p.1 : ℚ),
             w := Duration.Seconds (Time.Sub p.2.End p.2.Start)
                * (1000 / Duration.Seconds
                    (Time.Sub (NewTimeLine scenarioB).End (NewTimeLine scenarioB).Start)),
             h := 10 } : Rect))
    ∧ (allEvents (NewTimeLine scenarioB).List).length = 2 :=
  ⟨by decide,
    C7_one_row_per_event_in_traversal_order (NewTimeLine scenarioB) 1000 (by decide),
    by decide⟩

/-- C8. Resolution of the colour cell (cell index 3) of a row: the empty token
gives the event the colour (0,0,0,255); each of the tokens black, white, red,
green, blue, yellow gives it its fixed colour, of alpha 255; every other
non-empty token, a recognised name in another letter case included, stops the
row with the error made of the sheet name, the row index, the cell index 3 and
the token, and that is the error `ImportFromXLSX` returns, with no track list,
when no data cell before that one is offending. -/
theorem C8_colour_resolution (openFile : String → Except String File)
    (parse : String → Except String Time) (path : String) (file : File)
    (sheet : String) (idxRow : Nat) (rest : List Cell) (event : Event) (value : String)
    (before after : List CellRef) (c : CellRef) :
    importCells parse sheet idxRow COLOR (⟨""⟩ :: rest) event
      = importCells parse sheet idxRow (COLOR + 1) rest
          { event with Color := some ⟨0, 0, 0, 255⟩ }
    ∧ (∀ p ∈ [("black", (⟨0, 0, 0, 255⟩ : RGBA)), ("white", ⟨255, 255, 255, 255⟩),
          ("red", ⟨255, 0, 0, 255⟩), ("green", ⟨0, 255, 0, 255⟩), ("blue", ⟨0, 0, 255, 255⟩),
          ("yellow", ⟨255, 255, 0, 255⟩)],
        importCells parse sheet idxRow COLOR (⟨p.1⟩ :: rest) event
          = importCells parse sheet idxRow (COLOR + 1) rest { event with Color := some p.2 })
    ∧ (value ≠ "" → value ∉ recognised →
        importCells parse sheet idxRow COLOR (⟨value⟩ :: rest) event
          = .error (.InvalidValue sheet idxRow COLOR value "color not handled"))
    ∧ importCells parse sheet idxRow COLOR (⟨"Red"⟩ :: rest) event
          = .error (.InvalidValue sheet idxRow COLOR "Red" "color not handled")
    ∧ (openFile path = .ok file → dataCells file = before ++ c :: after →
        (∀ b ∈ before, offence parse b.idxCell b.value = none) →
        c.idxCell = COLOR → c.value ≠ "" → c.value ∉ recognised →
        ImportFromXLSX openFile parse path
          = (none, some (.InvalidValue c.sheet c.idxRow COLOR c.value "color not handled"))) := by
  have hbad : ∀ v : String, v ≠ "" → v ∉ recognised →
      importCells parse sheet idxRow COLOR (⟨v⟩ :: rest) event
        = .error (.InvalidValue sheet idxRow COLOR v "color not handled") := by
    intro v hv hrec
    have ho : offence parse COLOR v = some "color not handled" := by
      simp [offence, COLOR, hv, hrec]
    have h := importCell_of_offence parse COLOR v event _ ho
    unfold importCells
    simp only [Cell.String, h]
  refine ⟨rfl, ?_, hbad value, hbad "Red" (by decide) (by decide), ?_⟩
  · intro p hp
    simp only [List.mem_cons, List.mem_singleton, List.not_mem_nil, or_false] at hp
    rcases hp with h | h | h | h | h | h <;> subst h <;> rfl
  · intro hopen hsplit hbefore hidx hv hrec
    have ho : offence parse c.idxCell c.value = some "color not handled" := by
      simp [offence, hidx, COLOR, hv, hrec]
    have h := ImportFromXLSX_first_offending openFile parse path file before after c _
      hopen hsplit hbefore ho
    rw [h, hidx]

/-- C8 (witness). Scenario C: the colour token `purple` of row 1 of `Sheet1`
makes the import fail, with the error that names sheet `Sheet1`, row 1,
cell 3. -/
theorem C8_colour_resolution_witness :
    ImportFromXLSX (opens purpleBook) parseTime "events.xlsx"
      = (none, some (.InvalidValue "Sheet1" 1 3 "purple" "color not handled")) :=
  (C8_colour_resolution (opens purpleBook) parseTime "events.xlsx" purpleBook "Sheet1" 1 []
    zeroEvent "purple"
    [⟨"Sheet1", 1, 0, "2024-01-01 00:00:00"⟩, ⟨"Sheet1", 1, 1, "2024-01-01 01:00:00"⟩,
      ⟨"Sheet1", 1, 2, "Task A"⟩] [] ⟨"Sheet1", 1, 3, "purple"⟩).2.2.2.2
    rfl (by decide) (by decide) rfl (by decide) (by decide)

/-- C9 (counterexample). The data row of `threeCellBook` has the start, end and
name cells only, and its imported event has no colour at all (nil), whereas the
event of the same row with an empty colour cell is opaque black. -/
theorem C9_counterexample_row_of_three_cells :
    ImportFromXLSX (opens threeCellBook) parseTime "events.xlsx"
      = (some [{ Name := "Sheet1",
                 Events := [{ Start := Date 2024 1 1 0 0 0 0, End := Date 2024 1 1 1 0 0 0,
                              Name := "Task A", Color := none }] }], none)
    ∧ ImportFromXLSX (opens emptyColourBook) parseTime "events.xlsx"
      = (some [{ Name := "Sheet1",
                 Events := [{ Start := Date 2024 1 1 0 0 0 0, End := Date 2024 1 1 1 0 0 0,
                              Name := "Task A", Color := some ⟨0, 0, 0, 255⟩ }] }], none) :=
  ⟨rfl, rfl⟩

/-- C9 (amended). In every workbook whose import returns a track list, the
event imported from a data row (row index j + 1 of sheet i) that has no colour
cell, that is at most three cells, has no colour (nil); `Draw` draws the
rectangle of such an event and neither sets a colour nor fills. -/
theorem C9_event_of_row_without_colour_cell (openFile : String → Except String File)
    (parse : String → Except String Time) (path : String) (file : File)
    (list : List EventsList) (i j : Nat) (sheet : Sheet) (row : Row)
    (hopen : openFile path = .ok file)
    (hres : (ImportFromXLSX openFile parse path).1 = some list)
    (hsheet : file.Sheets[i]? = some sheet)
    (hrow : sheet.Rows[j + 1]? = some row)
    (hcells : row.Cells.length ≤ 3) :
    ∃ track ev, list[i]? = some track ∧ track.Events[j]? = some ev
      ∧ ev.Color = none
      ∧ ∀ x y h f : ℚ, ev.Draw x y h f
          = [Op.DrawRectangle x y (Duration.Seconds (Time.Sub ev.End ev.Start) * f) h] := by
  obtain ⟨_, _, htracks⟩ := ImportFromXLSX_tracks openFile parse path file list hopen hres
  obtain ⟨track, htrack, hrows⟩ := htracks i sheet hsheet
  obtain ⟨_, _, hevents⟩ := importRows_sheet parse sheet track hrows
  obtain ⟨ev, hev, hcellsOk⟩ := hevents j row hrow
  have hcolor : ev.Color = none :=
    importCells_color parse sheet.Name (j + 1) row.Cells 0 zeroEvent ev (by omega) hcellsOk
  refine ⟨track, ev, htrack, hev, hcolor, ?_⟩
  intro x y h f
  simp [Event.Draw, hcolor]

/-- C9 (witness). The data row of `threeCellBook`: row 1 of sheet 0. -/
theorem C9_event_of_row_without_colour_cell_witness :
    ∃ track ev,
      ([{ Name := "Sheet1",
          Events := [{ Start := Date 2024 1 1 0 0 0 0, End := Date 2024 1 1 1 0 0 0,
                       Name := "Task A", Color := none }] }] : List EventsList)[0]? = some track
      ∧ track.Events[0]? = some ev
      ∧ ev.Color = none
      ∧ ∀ x y h f : ℚ, ev.Draw x y h f
          = [Op.DrawRectangle x y (Duration.Seconds (Time.Sub ev.End ev.Start) * f) h] :=
  C9_event_of_row_without_colour_cell (opens threeCellBook) parseTime "events.xlsx"
    threeCellBook _ 0 0
    { Name := "Sheet1",
      Rows := [header, { Cells := [⟨"2024-01-01 00:00:00"⟩, ⟨"2024-01-01 01:00:00"⟩,
        ⟨"Task A"⟩] }] }
    { Cells := [⟨"2024-01-01 00:00:00"⟩, ⟨"2024-01-01 01:00:00"⟩, ⟨"Task A"⟩] }
    rfl rfl rfl rfl (by decide)

/-- C10. For an opened workbook: if some cell of a data row (row index 1 or
more) is offending, a start or end cell that does not parse or a colour cell
that is neither empty nor recognised, `ImportFromXLSX` returns no track list
and the error made of the sheet name, row index, cell index and text of the
first offending cell in sheet, row, cell order; if no cell is offending it
returns a track list and no error. -/
theorem C10_import_all_or_nothing (openFile : String → Except String File)
    (parse : String → Except String Time) (path : String) (file : File)
    (hopen : openFile path = .ok file) :
    ((∃ c ∈ dataCells file, offence parse c.idxCell c.value ≠ none) →
      ∃ before c after cause, dataCells file = before ++ c :: after
        ∧ (∀ b ∈ before, offence parse b.idxCell b.value = none)
        ∧ offence parse c.idxCell c.value = some cause
        ∧ ImportFromXLSX openFile parse path
          = (none, some (.InvalidValue c.sheet c.idxRow c.idxCell c.value cause)))
    ∧ ((∀ c ∈ dataCells file, offence parse c.idxCell c.value = none) →
      ∃ list, ImportFromXLSX openFile parse path = (some list, none)) :=
  ⟨ImportFromXLSX_some_offending openFile parse path file hopen,
    ImportFromXLSX_no_offending openFile parse path file hopen⟩

/-- C10 (witness). The workbook `twoOffencesBook`: the start cell of row 1 does
not parse and its colour cell is not recognised; the error names cell 0. -/
theorem C10_import_all_or_nothing_witness :
    opens twoOffencesBook "events.xlsx" = .ok twoOffencesBook
    ∧ (∃ c ∈ dataCells twoOffencesBook, offence parseTime c.idxCell c.value ≠ none)
    ∧ (∃ before c after cause, dataCells twoOffencesBook = before ++ c :: after
        ∧ (∀ b ∈ before, offence parseTime b.idxCell b.value = none)
        ∧ offence parseTime c.idxCell c.value = some cause
        ∧ ImportFromXLSX (opens twoOffencesBook) parseTime "events.xlsx"
          = (none, some (.InvalidValue c.sheet c.idxRow c.idxCell c.value cause)))
    ∧ ImportFromXLSX (opens twoOffencesBook) parseTime "events.xlsx"
      = (none, some (.InvalidValue "Sheet1" 1 0 "yesterday"
          "parsing time \"yesterday\" as \"2006-01-02 15:04:05\"")) :=
  have hsome : ∃ c ∈ dataCells twoOffencesBook, offence parseTime c.idxCell c.value ≠ none :=
    ⟨⟨"Sheet1", 1, 3, "purple"⟩, by decide, by decide⟩
  ⟨rfl, hsome,
    (C10_import_all_or_nothing (opens twoOffencesBook) parseTime "events.xlsx"
      twoOffencesBook rfl).1 hsome,
    rfl⟩

/-- C11. When `ImportFromXLSX` returns a track list for an opened workbook, it
returns no error, and the list holds exactly one track per sheet, in sheet
order: the track of a sheet has the name of the sheet and exactly one event per
row of index 1 or more, in row order, the event of that row; a sheet with a
header row only gives a track without events. Row 0 of a sheet plays no part:
two workbooks whose sheets have the same names and the same rows of index 1 or
more give the same result, track list or error. -/
theorem C11_one_track_per_sheet (openFile : String → Except String File)
    (parse : String → Except String Time) (path : String) (file : File)
    (list : List EventsList)
    (hopen : openFile path = .ok file)
    (hres : (ImportFromXLSX openFile parse path).1 = some list) :
    ImportFromXLSX openFile parse path = (some list, none)
    ∧ list = file.Sheets.map (fun sheet =>
        ({ Name := sheet.Name, Events := sheet.Rows.tail.map (rowEvent parse) } : EventsList))
    ∧ list.length = file.Sheets.length
    ∧ (∀ (i : Nat) (sheet : Sheet), file.Sheets[i]? = some sheet →
        ∃ track, list[i]? = some track
          ∧ track.Name = sheet.Name
          ∧ track.Events.length = sheet.Rows.length - 1
          ∧ (sheet.Rows.length ≤ 1 → track.Events = [])
          ∧ ∀ (j : Nat) (row : Row), sheet.Rows[j + 1]? = some row →
              track.Events[j]? = some (rowEvent parse row))
    ∧ (∀ (openFile2 : String → Except String File) (path2 : String) (file2 : File),
        openFile2 path2 = .ok file2 →
        file2.Sheets.map (fun sheet => (sheet.Name, sheet.Rows.tail))
          = file.Sheets.map (fun sheet => (sheet.Name, sheet.Rows.tail)) →
        ImportFromXLSX openFile2 parse path2 = ImportFromXLSX openFile parse path) := by
  obtain ⟨hok, hmap⟩ := ImportFromXLSX_map openFile parse path file list hopen hres
  refine ⟨hok, hmap, by rw [hmap, List.length_map], ?_, ?_⟩
  · intro i sheet hi
    refine ⟨sheetTrack parse sheet, ?_, rfl, ?_, ?_, ?_⟩
    · rw [hmap, List.getElem?_map, hi]
      rfl
    · simp [sheetTrack]
    · intro hlen
      have htail : sheet.Rows.tail = [] := by
        rcases hrows : sheet.Rows with _ | ⟨r0, _ | ⟨r1, rest⟩⟩
        · rfl
        · rfl
        · rw [hrows] at hlen
          simp at hlen
      simp [sheetTrack, htail]
    · intro j row hj
      have hj2 : sheet.Rows.tail[j]? = some row := by
        rw [List.getElem?_tail]
        exact hj
      show (sheet.Rows.tail.map (rowEvent parse))[j]? = some (rowEvent parse row)
      rw [List.getElem?_map, hj2]
      rfl
  · intro openFile2 path2 file2 hopen2 hsame
    exact ImportFromXLSX_congr openFile2 openFile parse path2 path file2 file hopen2 hopen hsame

/-- C11 (witness). Scenario D: a workbook of one sheet with a header row only
gives one track, named after the sheet, without events. -/
theorem C11_one_track_per_sheet_witness :
    opens headerBook "events.xlsx" = .ok headerBook
    ∧ (ImportFromXLSX (opens headerBook) parseTime "events.xlsx").1
        = some [{ Name := "Sheet1", Events := [] }]
    ∧ ImportFromXLSX (opens headerBook) parseTime "events.xlsx"
        = (some [{ Name := "Sheet1", Events := [] }], none)
    ∧ ([{ Name := "Sheet1", Events := [] }] : List EventsList)
        = headerBook.Sheets.map (fun sheet =>
          ({ Name := sheet.Name, Events := sheet.Rows.tail.map (rowEvent parseTime) }
            : EventsList))
    ∧ ImportFromXLSX (opens scenarioABookOtherHeader) parseTime "other.xlsx"
        = ImportFromXLSX (opens scenarioABook) parseTime "events.xlsx" :=
  have h := C11_one_track_per_sheet (opens headerBook) parseTime "events.xlsx" headerBook
    [{ Name := "Sheet1", Events := [] }] rfl rfl
  have h2 := C11_one_track_per_sheet (opens scenarioABook) parseTime "events.xlsx"
    scenarioABook [{ Name := "Sheet1", Events := [taskA] }] rfl rfl
  ⟨rfl, rfl, h.1, h.2.1,
    h2.2.2.2.2 (opens scenarioABookOtherHeader) "other.xlsx" scenarioABookOtherHeader rfl rfl⟩

/-- C12 (counterexample). One event of fifteen seconds and target width 4000:
in `float64` the rectangle is drawn with width 4000 + 2^-41, printed
4000.0000000000005, not with the target width. -/
theorem C12_counterexample_rounded_width :
    allEvents [quarterMinuteTrack] = [quarterMinute]
    ∧ quarterMinute.Start < quarterMinute.End
    ∧ eventRectangles (Draw64 (NewTimeLine [quarterMinuteTrack]) 4000)
        = [⟨0, 0, 8796093022208001 / 2199023255552, 10⟩]
    ∧ (8796093022208001 / 2199023255552 : ℚ) ≠ 4000 := by
  have hd : Time.Sub quarterMinute.End quarterMinute.Start = 15000000000 := by decide
  refine ⟨by decide, by decide, ?_, by norm_num⟩
  rw [Draw64_single [quarterMinuteTrack] quarterMinute 4000 (by decide) (by decide), hd,
    Seconds64_fifteen, width64_fifteen_seconds]
  simp [eventRectangles, rectangles, quarterMinute]

/-- C12 (amended). For every list of tracks that holds exactly one event, with
start < end, and every target width whose integer part fits an `int`, `Draw`
on the timeline of `NewTimeLine` creates a canvas of height 1000 by
`gg.NewContext(int(width), 1000)`, draws the background and then one rectangle
at x = 0, y = 0 of height 10
whose width is the `float64` product of the duration of the event in seconds
and of the target width divided by that duration, sets the colour of the event
and fills (an event without colour gets neither call), and saves. That width is
the target width in exact arithmetic, and in `float64` within
|width| / 2^51 of it when |width| is 1 or more. -/
theorem C12_single_event_spans_the_canvas (list : List EventsList) (e : Event) (width : ℚ)
    (hone : allEvents list = [e]) (hlt : e.Start < e.End) (hfit : fitsInt width) :
    Draw64 (NewTimeLine list) width
      = [Op.NewContext (toInt width) 1000, Op.DrawRectangle 0 0 width 1000,
          Op.SetRGB255 255 255 255, Op.Fill,
          Op.DrawRectangle 0 0
            (round64 (Duration.Seconds64 (Time.Sub e.End e.Start)
              * round64 (width / Duration.Seconds64 (Time.Sub e.End e.Start)))) 10]
        ++ (match e.Color with
            | some c => [Op.SetColor c, Op.Fill]
            | none => [])
        ++ [Op.SavePNG "out.png"]
    ∧ (-(2 : Int) ^ 63 ≤ toInt width ∧ toInt width < (2 : Int) ^ 63)
    ∧ (1 ≤ |width| →
        |round64 (Duration.Seconds64 (Time.Sub e.End e.Start)
            * round64 (width / Duration.Seconds64 (Time.Sub e.End e.Start))) - width|
          ≤ |width| / 2 ^ (51 : Nat))
    ∧ Duration.Seconds64 (Time.Sub e.End e.Start)
        * (width / Duration.Seconds64 (Time.Sub e.End e.Start)) = width
    ∧ Draw (NewTimeLine list) width
      = [Op.NewContext (toInt width) 1000, Op.DrawRectangle 0 0 width 1000,
          Op.SetRGB255 255 255 255, Op.Fill, Op.DrawRectangle 0 0 width 10]
        ++ (match e.Color with
            | some c => [Op.SetColor c, Op.Fill]
            | none => [])
        ++ [Op.SavePNG "out.png"] := by
  have hS64 : Duration.Seconds64 (Time.Sub e.End e.Start) ≠ 0 :=
    ne_of_gt (Seconds64_pos _ (Sub_pos _ _ hlt))
  refine ⟨Draw64_single list e width hone hlt, toInt_fits width hfit, ?_, ?_, ?_⟩
  · intro hw1
    exact width64_error _ width (Seconds64_pos _ (Sub_pos _ _ hlt))
      (Seconds64_le _ (le_of_lt (Sub_pos _ _ hlt)) (Sub_le_max _ _)) hw1
  · field_simp
  · have hne : (NewTimeLine list).Start ≠ (NewTimeLine list).End := by
      rw [NewTimeLine_single list e hone]
      exact ne_of_lt hlt
    have hS : Duration.Seconds (Time.Sub e.End e.Start) ≠ 0 := by
      rw [Ne, Seconds_eq_zero_iff, Sub_eq_zero_iff]
      exact fun h => (ne_of_lt hlt) h.symm
    rw [Draw_of_ne _ _ hne, toInt_canvasHeight]
    rw [NewTimeLine_single list e hone] at hne ⊢
    have hcanvas : canvasHeight { List := list, Start := e.Start, End := e.End, EventsNb := 1 }
        = 1000 := by
      unfold canvasHeight
      norm_num
    have hw : Duration.Seconds (Time.Sub e.End e.Start)
        * (width / Duration.Seconds (Time.Sub e.End e.Start)) = width := by
      field_simp
    simp only [hone, hcanvas, rowOps, Event.Draw, Sub_self, Seconds_zero, zero_mul, hw]
    cases e.Color <;> simp

/-- C12 (witness). Scenario A: the event 2024-01-01 00:00:00 to 01:00:00, red,
target width 1000; here the `float64` product is 1000 itself. -/
theorem C12_single_event_spans_the_canvas_witness :
    allEvents [scenarioA] = [taskA]
    ∧ taskA.Start < taskA.End
    ∧ fitsInt 1000
    ∧ Draw64 (NewTimeLine [scenarioA]) 1000
      = [Op.NewContext 1000 1000, Op.DrawRectangle 0 0 1000 1000,
          Op.SetRGB255 255 255 255, Op.Fill, Op.DrawRectangle 0 0 1000 10,
          Op.SetColor ⟨255, 0, 0, 255⟩, Op.Fill, Op.SavePNG "out.png"] :=
  have hfit : fitsInt 1000 := by
    unfold fitsInt
    norm_num
  have hd : Time.Sub taskA.End taskA.Start = 3600000000000 := by decide
  have h := (C12_single_event_spans_the_canvas [scenarioA] taskA 1000 (by decide) (by decide)
    hfit).1
  ⟨by decide, by decide, hfit, by
    rw [h, hd, Seconds64_hour, width64_one_hour, toInt_thousand]
    rfl⟩

/-- C13. For every list of tracks that holds no event at all (no track, or
every track empty), `NewTimeLine` returns the timeline of that list with Start
and End both the zero instant and EventsNb = 0. -/
theorem C13_timeline_without_events (list : List EventsList)
    (h : ∀ l ∈ list, l.Events = []) :
    NewTimeLine list = { List := list, Start := 0, End := 0, EventsNb := 0 }
    ∧ Time.IsZero (NewTimeLine list).Start = true
    ∧ Time.IsZero (NewTimeLine list).End = true
    ∧ (NewTimeLine list).EventsNb = 0 := by
  have heq : NewTimeLine list = { List := list, Start := 0, End := 0, EventsNb := 0 } := by
    rw [NewTimeLine_eq, allEvents_eq_nil list h]
    rfl
  rw [heq]
  exact ⟨rfl, rfl, rfl, rfl⟩

/-- C13 (witness). Two tracks, both empty. -/
theorem C13_timeline_without_events_witness :
    (∀ l ∈ emptyTracks, l.Events = [])
    ∧ NewTimeLine emptyTracks = { List := emptyTracks, Start := 0, End := 0, EventsNb := 0 }
    ∧ Time.IsZero (NewTimeLine emptyTracks).Start = true
    ∧ Time.IsZero (NewTimeLine emptyTracks).End = true
    ∧ (NewTimeLine emptyTracks).EventsNb = 0 :=
  ⟨by decide, C13_timeline_without_events emptyTracks (by decide)⟩

/-- C14 (counterexample). Scenario A with target width 1000.5: the canvas is
created 1000 wide, which is not the target width. -/
theorem C14_counterexample_fractional_width :
    canvas (Draw (NewTimeLine [scenarioA]) (2001 / 2)) = some (1000, 1000)
    ∧ ((1000 : Int) : ℚ) ≠ 2001 / 2 := by
  constructor
  · rw [canvas_Draw _ _ (by decide), toInt_canvasHeight]
    have hw : toInt (2001 / 2) = 1000 := by
      unfold toInt
      norm_num
      decide
    rw [hw]
    rfl
  · norm_num

/-- C14 (amended). Whenever `Draw` creates a canvas for a target width whose
integer part fits an `int`, the width it passes to `gg.NewContext` is
int(width), the target width with its fraction discarded, an `int` of 64 bits:
the target width itself when that is a whole number, and otherwise the next
whole number toward zero, less than 1 away from it; the first rectangle drawn,
the background, has the target width itself. -/
theorem C14_canvas_width_is_truncated (timeline : TimeLine) (width : ℚ) (w h : Int)
    (hfit : fitsInt width)
    (hc : canvas (Draw timeline width) = some (w, h)) :
    w = toInt width
    ∧ (-(2 : Int) ^ 63 ≤ w ∧ w < (2 : Int) ^ 63)
    ∧ (∀ z : Int, width = (z : ℚ) → w = z)
    ∧ (0 ≤ width → (w : ℚ) ≤ width ∧ width < (w : ℚ) + 1)
    ∧ (width ≤ 0 → width ≤ (w : ℚ) ∧ (w : ℚ) - 1 < width)
    ∧ (rectangles (Draw timeline width)).head?
        = some ⟨0, 0, width,
            if (10 : ℚ) * (timeline.EventsNb : ℚ) < 100 then 1000
            else 10 * (timeline.EventsNb : ℚ)⟩ := by
  have hne : timeline.Start ≠ timeline.End := by
    intro heq
    rw [Draw_of_eq timeline width heq] at hc
    exact absurd hc (by simp [canvas])
  have hw : w = toInt width := by
    rw [canvas_Draw timeline width hne] at hc
    exact (congrArg Prod.fst (Option.some.inj hc)).symm
  refine ⟨hw, ?_, ?_, ?_, ?_, ?_⟩
  · rw [hw]
    exact toInt_fits width hfit
  · intro z hz
    rw [hw, hz, toInt_intCast]
  · intro h0
    rw [hw]
    exact toInt_le_of_nonneg width h0
  · intro h0
    rw [hw]
    exact le_toInt_of_nonpos width h0
  · rw [rectangles_Draw timeline width hne]
    rfl

/-- C14 (witness). Scenario A with target width 1000: the canvas is 1000 wide,
and so is the background. -/
theorem C14_canvas_width_is_truncated_witness :
    fitsInt 1000
    ∧ canvas (Draw (NewTimeLine [scenarioA]) 1000) = some (1000, 1000)
    ∧ (1000 : Int) = toInt 1000
    ∧ (-(2 : Int) ^ 63 ≤ 1000 ∧ (1000 : Int) < (2 : Int) ^ 63)
    ∧ (((1000 : Int) : ℚ) ≤ 1000 ∧ (1000 : ℚ) < ((1000 : Int) : ℚ) + 1)
    ∧ (rectangles (Draw (NewTimeLine [scenarioA]) 1000)).head?
        = some ⟨0, 0, 1000,
            if (10 : ℚ) * ((NewTimeLine [scenarioA]).EventsNb : ℚ) < 100 then 1000
            else 10 * ((NewTimeLine [scenarioA]).EventsNb : ℚ)⟩ :=
  have hfit : fitsInt 1000 := by
    unfold fitsInt
    norm_num
  have hc : canvas (Draw (NewTimeLine [scenarioA]) 1000) = some (1000, 1000) := by
    rw [canvas_Draw _ _ (by decide), toInt_canvasHeight, toInt_thousand]
    rfl
  match C14_canvas_width_is_truncated (NewTimeLine [scenarioA]) 1000 1000 1000 hfit hc with
  | ⟨h1, h2, _, h4, _, h6⟩ => ⟨hfit, hc, h1, h2, h4 (by norm_num), h6⟩

/-- C15 (counterexample). On the timeline of `backwardsTrack`, of one hour, with
target width 1000, the event `backwards`, whose end is a quarter of an hour
before its start, gets a rectangle of width -250: the width is not clamped. -/
theorem C15_counterexample_negative_width :
    (NewTimeLine [backwardsTrack]).Start ≠ (NewTimeLine [backwardsTrack]).End
    ∧ (allEvents (NewTimeLine [backwardsTrack]).List)[1]? = some backwards
    ∧ backwards.End ≤ backwards.Start
    ∧ ((eventRectangles (Draw (NewTimeLine [backwardsTrack]) 1000))[1]?).map Rect.w
        = some (-250) := by
  have hne : (NewTimeLine [backwardsTrack]).Start ≠ (NewTimeLine [backwardsTrack]).End := by
    decide
  have hw : Time.Sub backwards.End backwards.Start = -900000000000 := by decide
  have ht : Time.Sub (NewTimeLine [backwardsTrack]).End (NewTimeLine [backwardsTrack]).Start
      = 3600000000000 := by decide
  refine ⟨hne, by decide, by decide, ?_⟩
  rw [getElem?_eventRectangles _ 1000 1 backwards hne (by decide)]
  simp only [Option.map_some', rowRect, hw, ht, Seconds_eq]
  norm_num

/-- C15 (amended). For every event with end ≤ start that `Draw` draws, the
rectangle is drawn with width (event.End.Sub(event.Start)) in seconds times the
factor, without any clamp: zero for a zero-duration event, and negative for an
event with end < start when the factor is positive. -/
theorem C15_width_is_not_clamped (timeline : TimeLine) (width : ℚ) (k : Nat) (e : Event)
    (hne : timeline.Start ≠ timeline.End)
    (hk : (allEvents timeline.List)[k]? = some e)
    (hle : e.End ≤ e.Start) :
    ∃ r, (eventRectangles (Draw timeline width))[k]? = some r
      ∧ r.w = Duration.Seconds (Time.Sub e.End e.Start)
          * (width / Duration.Seconds (Time.Sub timeline.End timeline.Start))
      ∧ (e.End = e.Start → r.w = 0)
      ∧ (e.End < e.Start →
          0 < width / Duration.Seconds (Time.Sub timeline.End timeline.Start) → r.w < 0)
      ∧ (0 ≤ width / Duration.Seconds (Time.Sub timeline.End timeline.Start) → r.w ≤ 0) := by
  refine ⟨_, getElem?_eventRectangles timeline width k e hne hk, rfl, ?_, ?_, ?_⟩
  · intro heq
    simp only [rowRect]
    rw [heq, Sub_self, Seconds_zero, zero_mul]
  · intro hlt hf
    simp only [rowRect]
    exact mul_neg_of_neg_of_pos (Seconds_neg _ (Sub_neg _ _ hlt)) hf
  · intro hf
    simp only [rowRect]
    have hs : Duration.Seconds (Time.Sub e.End e.Start) ≤ 0 := by
      rcases lt_or_eq_of_le hle with h | h
      · exact le_of_lt (Seconds_neg _ (Sub_neg _ _ h))
      · rw [h, Sub_self, Seconds_zero]
    exact mul_nonpos_of_nonpos_of_nonneg hs hf

/-- C15 (witness). The event `backwards` of `backwardsTrack`, target width
1000: its width is negative. -/
theorem C15_width_is_not_clamped_witness :
    (NewTimeLine [backwardsTrack]).Start ≠ (NewTimeLine [backwardsTrack]).End
    ∧ (allEvents (NewTimeLine [backwardsTrack]).List)[1]? = some backwards
    ∧ backwards.End ≤ backwards.Start
    ∧ ∃ r, (eventRectangles (Draw (NewTimeLine [backwardsTrack]) 1000))[1]? = some r
      ∧ r.w < 0 :=
  match C15_width_is_not_clamped (NewTimeLine [backwardsTrack]) 1000 1 backwards
      (by decide) (by decide) (by decide) with
  | ⟨r, hr, _, _, hneg, _⟩ =>
    ⟨by decide, by decide, by decide, r, hr,
      hneg (by decide) (by
        have ht : Time.Sub (NewTimeLine [backwardsTrack]).End
            (NewTimeLine [backwardsTrack]).Start = 3600000000000 := by decide
        rw [ht, Seconds_eq]
        norm_num)⟩

/-- C16. When no event starts or ends at the zero instant and the list holds at
least one event, the Start of `NewTimeLine` is the minimum of the starts (the
start of some event, and at most every start), its End is the maximum of the
ends, and Start, End and EventsNb are the same for every list that holds the
same events in another order, in particular after a reordering of the tracks
and of the events inside each track. -/
theorem C16_bounds_without_zero_instant (list : List EventsList)
    (hne : allEvents list ≠ [])
    (hnz : ∀ e ∈ allEvents list, Time.IsZero e.Start = false ∧ Time.IsZero e.End = false) :
    ((∃ e ∈ allEvents list, (NewTimeLine list).Start = e.Start)
      ∧ ∀ e ∈ allEvents list, (NewTimeLine list).Start ≤ e.Start)
    ∧ ((∃ e ∈ allEvents list, (NewTimeLine list).End = e.End)
      ∧ ∀ e ∈ allEvents list, e.End ≤ (NewTimeLine list).End)
    ∧ (∀ list2, (allEvents list).Perm (allEvents list2) →
        (NewTimeLine list2).Start = (NewTimeLine list).Start
        ∧ (NewTimeLine list2).End = (NewTimeLine list).End
        ∧ (NewTimeLine list2).EventsNb = (NewTimeLine list).EventsNb)
    ∧ (∀ list2, Reordering list list2 →
        (NewTimeLine list2).Start = (NewTimeLine list).Start
        ∧ (NewTimeLine list2).End = (NewTimeLine list).End
        ∧ (NewTimeLine list2).EventsNb = (NewTimeLine list).EventsNb) := by
  have hnz2 : ∀ e ∈ allEvents list, e.Start ≠ (0 : Int) ∧ e.End ≠ (0 : Int) := by
    intro e he
    obtain ⟨h1, h2⟩ := hnz e he
    unfold Time.IsZero at h1 h2
    exact ⟨of_decide_eq_false h1, of_decide_eq_false h2⟩
  refine ⟨NewTimeLine_Start_min list hne (fun e he => (hnz2 e he).1),
    NewTimeLine_End_max list hne (fun e he => (hnz2 e he).2), ?_, ?_⟩
  · intro list2 hperm
    exact NewTimeLine_perm list list2 hne hnz2 hperm
  · intro list2 hre
    exact NewTimeLine_perm list list2 hne hnz2 (allEvents_perm_of_reordering list list2 hre)

/-- C16 (witness). Scenario B, and its two tracks in the other order. -/
theorem C16_bounds_without_zero_instant_witness :
    allEvents scenarioB ≠ []
    ∧ (∀ e ∈ allEvents scenarioB, Time.IsZero e.Start = false ∧ Time.IsZero e.End = false)
    ∧ (NewTimeLine scenarioB).Start = Date 2024 1 1 0 0 0 0
    ∧ (NewTimeLine scenarioB).End = Date 2024 1 1 3 0 0 0
    ∧ (NewTimeLine scenarioB.reverse).Start = (NewTimeLine scenarioB).Start
    ∧ (NewTimeLine scenarioB.reverse).End = (NewTimeLine scenarioB).End
    ∧ (NewTimeLine scenarioB.reverse).EventsNb = (NewTimeLine scenarioB).EventsNb :=
  ⟨by decide, by decide, by decide, by decide,
    (C16_bounds_without_zero_instant scenarioB (by decide) (by decide)).2.2.1
      scenarioB.reverse (by decide)⟩

/-- C17. For every list of tracks with at least one event, all of whose events
have Start ≤ End, the timeline of `NewTimeLine` has Start ≤ End, whatever the
order of the events and also when timestamps are the zero instant; so the total
duration is not negative, and whenever `Draw` draws with a positive width the
scale factor is positive. -/
theorem C17_start_le_end (list : List EventsList)
    (hne : allEvents list ≠ [])
    (h : ∀ e ∈ allEvents list, e.Start ≤ e.End) :
    (NewTimeLine list).Start ≤ (NewTimeLine list).End
    ∧ 0 ≤ Time.Sub (NewTimeLine list).End (NewTimeLine list).Start
    ∧ 0 ≤ Duration.Seconds (Time.Sub (NewTimeLine list).End (NewTimeLine list).Start)
    ∧ ∀ width : ℚ, 0 < width → Draw (NewTimeLine list) width ≠ [] →
        0 < width / Duration.Seconds
          (Time.Sub (NewTimeLine list).End (NewTimeLine list).Start) := by
  have hle := NewTimeLine_Start_le_End list hne h
  have hsub := Sub_nonneg _ _ hle
  have hsec := Seconds_nonneg _ hsub
  refine ⟨hle, hsub, hsec, ?_⟩
  intro width hw hdraw
  have hne0 : Duration.Seconds
      (Time.Sub (NewTimeLine list).End (NewTimeLine list).Start) ≠ 0 := by
    intro h0
    apply hdraw
    apply Draw_of_eq
    rw [Seconds_eq_zero_iff, Sub_eq_zero_iff] at h0
    exact h0.symm
  exact div_pos hw (lt_of_le_of_ne hsec (Ne.symm hne0))

/-- C17 (witness). The track `zeroStartTrack`, one of whose events starts at the
zero instant, with target width 1000. -/
theorem C17_start_le_end_witness :
    allEvents [zeroStartTrack] ≠ []
    ∧ (∀ e ∈ allEvents [zeroStartTrack], e.Start ≤ e.End)
    ∧ Draw (NewTimeLine [zeroStartTrack]) 1000 ≠ []
    ∧ (NewTimeLine [zeroStartTrack]).Start ≤ (NewTimeLine [zeroStartTrack]).End
    ∧ 0 ≤ Time.Sub (NewTimeLine [zeroStartTrack]).End (NewTimeLine [zeroStartTrack]).Start
    ∧ 0 ≤ Duration.Seconds
        (Time.Sub (NewTimeLine [zeroStartTrack]).End (NewTimeLine [zeroStartTrack]).Start)
    ∧ 0 < (1000 : ℚ) / Duration.Seconds
        (Time.Sub (NewTimeLine [zeroStartTrack]).End (NewTimeLine [zeroStartTrack]).Start) :=
  have hdraw : Draw (NewTimeLine [zeroStartTrack]) 1000 ≠ [] := by
    rw [Draw_of_ne _ _ (by decide)]
    simp
  match C17_start_le_end [zeroStartTrack] (by decide) (by decide) with
  | ⟨h1, h2, h3, h4⟩ =>
    ⟨by decide, by decide, hdraw, h1, h2, h3, h4 1000 (by norm_num) hdraw⟩

/-- C18. On a timeline built by `NewTimeLine` on which `Draw` creates a canvas,
the rectangle of the k-th event has y = 10 * k and height 10, and lies inside
the canvas: 0 ≤ y and y + 10 ≤ canvas height; with 10 events or more the row of
the last event ends exactly at the canvas height. -/
theorem C18_rows_inside_canvas (list : List EventsList) (width : ℚ) (w h : Int) (k : Nat)
    (r : Rect)
    (hc : canvas (Draw (NewTimeLine list) width) = some (w, h))
    (hk : (eventRectangles (Draw (NewTimeLine list) width))[k]? = some r) :
    r.y = 10 * (k : ℚ)
    ∧ r.h = 10
    ∧ 0 ≤ r.y
    ∧ r.y + 10 ≤ (h : ℚ)
    ∧ (10 ≤ (allEvents list).length → k + 1 = (allEvents list).length →
        r.y + 10 = (h : ℚ)) := by
  have hne : (NewTimeLine list).Start ≠ (NewTimeLine list).End := by
    intro heq
    rw [Draw_of_eq _ width heq] at hc
    exact absurd hc (by simp [canvas])
  rw [canvas_Draw _ width hne, toInt_canvasHeight, NewTimeLine_EventsNb] at hc
  have hh : h = (if 10 * ((allEvents list).length : Int) < 100 then 1000
      else 10 * ((allEvents list).length : Int)) :=
    (congrArg Prod.snd (Option.some.inj hc)).symm
  obtain ⟨e, he, hr⟩ := getElem?_eventRectangles_inv _ width k r hne hk
  rw [NewTimeLine_List] at he
  have hlt : k < (allEvents list).length := by
    by_contra hge
    rw [List.getElem?_eq_none (Nat.le_of_not_lt hge)] at he
    exact absurd he (by simp)
  have hy : r.y = 10 * (k : ℚ) := by rw [hr]; rfl
  have hkq : (k : ℚ) + 1 ≤ ((allEvents list).length : ℚ) := by exact_mod_cast hlt
  have hk0 : (0 : ℚ) ≤ (k : ℚ) := Nat.cast_nonneg k
  refine ⟨hy, by rw [hr]; rfl, by rw [hy]; positivity, ?_, ?_⟩
  · rw [hy, hh]
    by_cases hsmall : 10 * ((allEvents list).length : Int) < 100
    · rw [if_pos hsmall]
      have hq : (10 : ℚ) * ((allEvents list).length : ℚ) < 100 := by exact_mod_cast hsmall
      push_cast
      linarith
    · rw [if_neg hsmall]
      push_cast
      linarith
  · intro hten hlast
    rw [hy, hh]
    have hbig : ¬ 10 * ((allEvents list).length : Int) < 100 := by omega
    rw [if_neg hbig]
    have hq : (k : ℚ) + 1 = ((allEvents list).length : ℚ) := by exact_mod_cast hlast
    push_cast
    linarith

/-- C18 (witness). Scenario B, target width 1000: the second event is in the row
at y = 10, inside the canvas of height 1000. -/
theorem C18_rows_inside_canvas_witness :
    canvas (Draw (NewTimeLine scenarioB) 1000) = some (1000, 1000)
    ∧ ∃ r, (eventRectangles (Draw (NewTimeLine scenarioB) 1000))[1]? = some r
      ∧ r.y = 10 * ((1 : Nat) : ℚ)
      ∧ r.h = 10
      ∧ 0 ≤ r.y
      ∧ r.y + 10 ≤ ((1000 : Int) : ℚ) :=
  have hc : canvas (Draw (NewTimeLine scenarioB) 1000) = some (1000, 1000) := by
    rw [canvas_Draw _ _ (by decide), toInt_canvasHeight, toInt_thousand]
    rfl
  have hk := getElem?_eventRectangles (NewTimeLine scenarioB) 1000 1 _ (by decide)
    (by decide : (allEvents (NewTimeLine scenarioB).List)[1]? = some
      { Start := Date 2024 1 1 2 0 0 0, End := Date 2024 1 1 3 0 0 0,
        Name := "second", Color := none })
  match C18_rows_inside_canvas scenarioB 1000 1000 1000 1 _ hc hk with
  | ⟨h1, h2, h3, h4, _⟩ => ⟨hc, _, hk, h1, h2, h3, h4⟩

/-- C19 (counterexample). The track `fourCenturies` spans the years 1000 to
1400; its events have start ≤ end and no timestamp at the zero instant. With
target width 1000 the rectangle of the event of 1200 to 1400 has
x + width above 1368, beyond the target width. -/
theorem C19_counterexample_timeline_of_four_centuries :
    (∀ e ∈ allEvents [fourCenturies],
      e.Start ≤ e.End ∧ Time.IsZero e.Start = false ∧ Time.IsZero e.End = false)
    ∧ (NewTimeLine [fourCenturies]).Start ≠ (NewTimeLine [fourCenturies]).End
    ∧ ∃ r, (eventRectangles (Draw (NewTimeLine [fourCenturies]) 1000))[1]? = some r
      ∧ 1368 < r.x + r.w := by
  have hne : (NewTimeLine [fourCenturies]).Start ≠ (NewTimeLine [fourCenturies]).End := by
    decide
  have hx : Time.Sub twoCenturies.Start (NewTimeLine [fourCenturies]).Start
      = 6311347200000000000 := by decide
  have hw : Time.Sub twoCenturies.End twoCenturies.Start = 6311433600000000000 := by decide
  have ht : Time.Sub (NewTimeLine [fourCenturies]).End (NewTimeLine [fourCenturies]).Start
      = 9223372036854775807 := by decide
  refine ⟨by decide, hne, _,
    getElem?_eventRectangles _ 1000 1 twoCenturies hne (by decide), ?_⟩
  simp only [rowRect, hx, hw, ht, Seconds_eq]
  norm_num

/-- C19 (amended). On a timeline built by `NewTimeLine` from events that all have
start ≤ end and no timestamp at the zero instant, with non-zero total duration
and a positive target width, every rectangle of an event has 0 ≤ x ≤ target
width and 0 ≤ width ≤ target width; and x + width ≤ target width when the total
duration of the timeline fits a Duration (at most 2^63 - 1 nanoseconds, about
292 years). -/
theorem C19_rectangles_inside_canvas (list : List EventsList) (width : ℚ) (k : Nat)
    (e : Event)
    (hle : ∀ e ∈ allEvents list, e.Start ≤ e.End)
    (hnz : ∀ e ∈ allEvents list, Time.IsZero e.Start = false ∧ Time.IsZero e.End = false)
    (hne : (NewTimeLine list).Start ≠ (NewTimeLine list).End)
    (hw : 0 < width)
    (hk : (allEvents list)[k]? = some e) :
    ∃ r, (eventRectangles (Draw (NewTimeLine list) width))[k]? = some r
      ∧ 0 ≤ r.x ∧ r.x ≤ width
      ∧ 0 ≤ r.w ∧ r.w ≤ width
      ∧ (fitsDuration ((NewTimeLine list).End - (NewTimeLine list).Start) →
          r.x + r.w ≤ width) := by
  have hmem : e ∈ allEvents list := List.getElem?_mem hk
  have hnonempty : allEvents list ≠ [] := List.ne_nil_of_mem hmem
  have hnz2 : ∀ e ∈ allEvents list, e.Start ≠ (0 : Int) ∧ e.End ≠ (0 : Int) := by
    intro e he
    obtain ⟨h1, h2⟩ := hnz e he
    unfold Time.IsZero at h1 h2
    exact ⟨of_decide_eq_false h1, of_decide_eq_false h2⟩
  have hmin : (NewTimeLine list).Start ≤ e.Start :=
    (NewTimeLine_Start_min list hnonempty (fun e he => (hnz2 e he).1)).2 e hmem
  have hmax : e.End ≤ (NewTimeLine list).End :=
    (NewTimeLine_End_max list hnonempty (fun e he => (hnz2 e he).2)).2 e hmem
  have hse : e.Start ≤ e.End := hle e hmem
  obtain ⟨ha1, ha2, ha3, ha4, ha5⟩ :=
    inside_bounds (NewTimeLine list).Start e.Start e.End (NewTimeLine list).End hmin hse hmax
  have hT : (0 : Int) < Time.Sub (NewTimeLine list).End (NewTimeLine list).Start := by
    have h0 := Sub_nonneg _ _ (le_trans hmin (le_trans hse hmax))
    have h1 : Time.Sub (NewTimeLine list).End (NewTimeLine list).Start ≠ (0 : Int) := by
      rw [Ne, Sub_eq_zero_iff]
      exact fun h => hne h.symm
    exact lt_of_le_of_ne h0 (Ne.symm h1)
  have hST := Seconds_pos _ hT
  have hf : 0 < width / Duration.Seconds
      (Time.Sub (NewTimeLine list).End (NewTimeLine list).Start) := div_pos hw hST
  have hxa : 0 ≤ Duration.Seconds (Time.Sub e.Start (NewTimeLine list).Start) :=
    Seconds_nonneg _ (Sub_nonneg _ _ hmin)
  have hwa : 0 ≤ Duration.Seconds (Time.Sub e.End e.Start) :=
    Seconds_nonneg _ (Sub_nonneg _ _ hse)
  have hxT : Duration.Seconds (Time.Sub e.Start (NewTimeLine list).Start)
      ≤ Duration.Seconds (Time.Sub (NewTimeLine list).End (NewTimeLine list).Start) :=
    Seconds_le_Seconds _ _ (Sub_mono _ _ _ _ ha1)
  have hwT : Duration.Seconds (Time.Sub e.End e.Start)
      ≤ Duration.Seconds (Time.Sub (NewTimeLine list).End (NewTimeLine list).Start) :=
    Seconds_le_Seconds _ _ (Sub_mono _ _ _ _ ha2)
  have hcancel : Duration.Seconds (Time.Sub (NewTimeLine list).End (NewTimeLine list).Start)
      * (width / Duration.Seconds
          (Time.Sub (NewTimeLine list).End (NewTimeLine list).Start)) = width := by
    field_simp
  refine ⟨_, getElem?_eventRectangles _ width k e hne (by rw [NewTimeLine_List]; exact hk),
    ?_, ?_, ?_, ?_, ?_⟩
  · exact mul_nonneg hxa (le_of_lt hf)
  · calc _ ≤ Duration.Seconds (Time.Sub (NewTimeLine list).End (NewTimeLine list).Start)
          * (width / Duration.Seconds
              (Time.Sub (NewTimeLine list).End (NewTimeLine list).Start)) :=
          mul_le_mul_of_nonneg_right hxT (le_of_lt hf)
      _ = width := hcancel
  · exact mul_nonneg hwa (le_of_lt hf)
  · calc _ ≤ Duration.Seconds (Time.Sub (NewTimeLine list).End (NewTimeLine list).Start)
          * (width / Duration.Seconds
              (Time.Sub (NewTimeLine list).End (NewTimeLine list).Start)) :=
          mul_le_mul_of_nonneg_right hwT (le_of_lt hf)
      _ = width := hcancel
  · intro hfit
    obtain ⟨hlo, hhi⟩ := hfit
    have hmin0 : minDuration ≤ (0 : Int) := by rw [minDuration_eq]; decide
    have e1 : Time.Sub e.Start (NewTimeLine list).Start = e.Start - (NewTimeLine list).Start :=
      Sub_of_fits _ _ (le_trans hmin0 ha3) (le_trans ha1 hhi)
    have e2 : Time.Sub e.End e.Start = e.End - e.Start :=
      Sub_of_fits _ _ (le_trans hmin0 ha4) (le_trans ha2 hhi)
    have hsum : Duration.Seconds (Time.Sub e.Start (NewTimeLine list).Start)
        + Duration.Seconds (Time.Sub e.End e.Start)
        ≤ Duration.Seconds (Time.Sub (NewTimeLine list).End (NewTimeLine list).Start) := by
      rw [e1, e2, Sub_of_fits _ _ hlo hhi, Seconds_eq, Seconds_eq, Seconds_eq, ← add_div]
      apply div_le_div_of_nonneg_right _ (by norm_num)
      exact_mod_cast ha5
    simp only [rowRect]
    rw [← add_mul]
    calc _ ≤ Duration.Seconds (Time.Sub (NewTimeLine list).End (NewTimeLine list).Start)
          * (width / Duration.Seconds
              (Time.Sub (NewTimeLine list).End (NewTimeLine list).Start)) :=
          mul_le_mul_of_nonneg_right hsum (le_of_lt hf)
      _ = width := hcancel

/-- C19 (witness). Scenario B, target width 1000: the second event, three hours
after the start of a timeline of three hours. -/
theorem C19_rectangles_inside_canvas_witness :
    (∀ e ∈ allEvents scenarioB, e.Start ≤ e.End)
    ∧ (∀ e ∈ allEvents scenarioB, Time.IsZero e.Start = false ∧ Time.IsZero e.End = false)
    ∧ (NewTimeLine scenarioB).Start ≠ (NewTimeLine scenarioB).End
    ∧ fitsDuration ((NewTimeLine scenarioB).End - (NewTimeLine scenarioB).Start)
    ∧ ∃ r, (eventRectangles (Draw (NewTimeLine scenarioB) 1000))[1]? = some r
      ∧ 0 ≤ r.x ∧ r.x ≤ 1000 ∧ 0 ≤ r.w ∧ r.w ≤ 1000 ∧ r.x + r.w ≤ 1000 :=
  match C19_rectangles_inside_canvas scenarioB 1000 1
      { Start := Date 2024 1 1 2 0 0 0, End := Date 2024 1 1 3 0 0 0,
        Name := "second", Color := none }
      (by decide) (by decide) (by decide) (by norm_num) (by decide) with
  | ⟨r, hr, h1, h2, h3, h4, h5⟩ =>
    ⟨by decide, by decide, by decide, by decide, r, hr, h1, h2, h3, h4, h5 (by decide)⟩

end GoEventsTimeline
